import Mathlib

/-!
TimerOne driver (`Timer1.cpp`, ATmega644P), shallow embedding

The driver is a set of methods over one piece of shared state: the
memory-mapped Timer/Counter1 registers and the members of the `TimerOne`
object.  Every method is embedded as a function `TimerOne → TimerOne` (plus
a return value where the C++ method has one).  Machine integers are `Nat`
or `Int` with the truncation of each store written out:

* 8-bit I/O registers (`TCCR1A`, `TCCR1B`, `TIMSK1`, `DDRD`, ...) are
  stored through `wr8`;
* 16-bit I/O registers (`ICR1`, `OCR1A`, `OCR1B`, `TCNT1`) are stored
  through `wr16`;
* `int` is 16 bits, `long` and `unsigned long` are 32 bits (avr-gcc).
-/

namespace Timer1

/-! ## Build constants and register bit positions -/

/-- Modelled from the spec: the build constant `F_CPU` is not defined in
`Timer1.cpp`; the spec's scenarios fix the clock frequency at 16,000,000 Hz. -/
def F_CPU : Nat := 16000000

/-- Modelled from the spec: `RESOLUTION` comes from the absent header; the
spec gives the counter resolution as 65536 (16-bit counter). -/
def RESOLUTION : Nat := 65536

/-- The avr-libc bit-value helper: `_BV(b)` is `1 << b`. -/
def _BV (b : Nat) : Nat := 1 <<< b

/-- Modelled from the spec: bit positions of the ATmega644P Timer/Counter1
registers, which `Timer1.cpp` takes from the device header.  TCCR1B: clock
select bit 0. -/
def CS10 : Nat := 0
/-- TCCR1B clock select bit 1 (device header, see `CS10`). -/
def CS11 : Nat := 1
/-- TCCR1B clock select bit 2 (device header, see `CS10`). -/
def CS12 : Nat := 2
/-- TCCR1B waveform generation mode bit 2 (device header, see `CS10`). -/
def WGM12 : Nat := 3
/-- TCCR1B waveform generation mode bit 3 (device header, see `CS10`). -/
def WGM13 : Nat := 4
/-- TCCR1B input capture edge select (device header, see `CS10`). -/
def ICES1 : Nat := 6
/-- TCCR1B input capture noise canceler (device header, see `CS10`). -/
def ICNC1 : Nat := 7
/-- TCCR1A waveform generation mode bit 1 (device header, see `CS10`). -/
def WGM11 : Nat := 1
/-- TCCR1A compare output mode, channel A, bit 1 (device header, see `CS10`). -/
def COM1A1 : Nat := 7
/-- TCCR1A compare output mode, channel B, bit 1 (device header, see `CS10`). -/
def COM1B1 : Nat := 5
/-- TIMSK1 overflow interrupt enable (device header, see `CS10`). -/
def TOIE1 : Nat := 0
/-- TIMSK1 input capture interrupt enable (device header, see `CS10`). -/
def ICIE1 : Nat := 5
/-- DDRD bit of pin PD4 / OC1B (device header, see `CS10`). -/
def DDD4 : Nat := 4
/-- DDRD bit of pin PD5 / OC1A (device header, see `CS10`). -/
def DDD5 : Nat := 5
/-- DDRD bit of pin PD6 / ICP1 (device header, see `CS10`). -/
def DDD6 : Nat := 6
/-- DDRB bit of pin PB1 / T1 (device header, see `CS10`). -/
def DDB1 : Nat := 1
/-- GTCCR prescaler reset bit (device header, see `CS10`). -/
def PSRSYNC : Nat := 0

/-! ## Machine integers -/

/-- Store into an 8-bit I/O register or an `unsigned char`. -/
def wr8 (v : Nat) : Nat := v % 256

/-- Store into a 16-bit I/O register or an `unsigned int`. -/
def wr16 (v : Nat) : Nat := v % 65536

/-- Value of an `unsigned long` expression: reduction modulo `2^32`. -/
def toULong (v : Nat) : Nat := v % 4294967296

/-- Conversion of an `unsigned long` value to `long` (two's complement). -/
def toLong (v : Nat) : Int :=
  if v % 4294967296 < 2147483648 then (v % 4294967296 : Nat)
  else ((v % 4294967296 : Nat) : Int) - 4294967296

/-- Conversion of a signed value (`int`, `long`) to `unsigned long`. -/
def ofSigned (v : Int) : Nat := (v % 4294967296).toNat

/-- Store of a signed `long` into a 16-bit unsigned location. -/
def wr16s (v : Int) : Nat := (v % 65536).toNat

/-- The operand `~m` of `reg &= ~m`, for an `int` mask `m`: the 16-bit
complement. -/
def compl16 (m : Nat) : Nat := 65535 ^^^ m

/-! ## State -/

/-- The Timer/Counter1 register file together with the members of the
`TimerOne` object.

Modelled from the spec: the member declarations live in the absent header
`Timer1.h`.  `pwmPeriod` is the spec's `periodTopValue`, "effectively
16-bit, widened to 32-bit for arithmetic", so it is stored through
`wr16s`; `nOverflows`, `hValue`, `lValue` are the spec's unsigned counters, held in
32 bits.  `isrCallback` is the registered callback (`none` for `NULL`, else
an identifier of the procedure), and `pioLog` records the calls of the
external `pioWrite(pin, level)`, most recent first. -/
structure TimerOne where
  TCCR1A : Nat
  TCCR1B : Nat
  ICR1 : Nat
  OCR1A : Nat
  OCR1B : Nat
  TCNT1 : Nat
  TIMSK1 : Nat
  GTCCR : Nat
  DDRD : Nat
  DDRB : Nat
  SREG : Nat
  pwmPeriod : Nat
  clockSelectBits : Nat
  oldSREG : Nat
  nOverflows : Nat
  hValue : Nat
  lValue : Nat
  isrCallback : Option Nat
  pioLog : List (Nat × Bool)
  deriving DecidableEq, Repr

/-- The state after power-on reset: every register and member is zero. -/
def powerOn : TimerOne :=
  { TCCR1A := 0, TCCR1B := 0, ICR1 := 0, OCR1A := 0, OCR1B := 0, TCNT1 := 0,
    TIMSK1 := 0, GTCCR := 0, DDRD := 0, DDRB := 0, SREG := 0,
    pwmPeriod := 0, clockSelectBits := 0, oldSREG := 0,
    nOverflows := 0, hValue := 0, lValue := 0, isrCallback := none, pioLog := [] }

/-- A state for exercising `read()`: top value 100, the /8 prescaler
selected, the counter at 5. -/
def readDemo : TimerOne :=
  { powerOn with ICR1 := 100, clockSelectBits := 2, TCNT1 := 5 }

/-- The instruction `cli()`: clear the global interrupt flag, bit 7 of SREG. -/
def cli (t : TimerOne) : TimerOne :=
  { t with SREG := wr8 (t.SREG &&& compl16 128) }

/-! ## `TimerOne::setPeriod` -/

/-- Lines 49-55 of `setPeriod`: the prescaler search.  Returns the final
value of the local `cycles` and the value assigned to `clockSelectBits`. -/
def setPeriodSearch (microseconds : Nat) : Int × Nat :=
  let cycles : Int := toLong (toULong ((F_CPU / 2000000) * toULong microseconds))
  if cycles < RESOLUTION then (cycles, _BV CS10)
  else
    let cycles := cycles >>> (3 : Nat)
    if cycles < RESOLUTION then (cycles, _BV CS11)
    else
      let cycles := cycles >>> (3 : Nat)
      if cycles < RESOLUTION then (cycles, _BV CS11 ||| _BV CS10)
      else
        let cycles := cycles >>> (2 : Nat)
        if cycles < RESOLUTION then (cycles, _BV CS12)
        else
          let cycles := cycles >>> (2 : Nat)
          if cycles < RESOLUTION then (cycles, _BV CS12 ||| _BV CS10)
          else ((RESOLUTION : Int) - 1, _BV CS12 ||| _BV CS10)

/-- The method `TimerOne::setPeriod(unsigned long microseconds)`. -/
def setPeriod (microseconds : Nat) (t : TimerOne) : TimerOne :=
  let r := setPeriodSearch microseconds
  let t := { t with clockSelectBits := r.2 }
  let t := { t with oldSREG := t.SREG }
  let t := cli t
  let t := { t with pwmPeriod := wr16s r.1 }
  let t := { t with ICR1 := wr16 t.pwmPeriod }
  let t := { t with SREG := t.oldSREG }
  let t := { t with TCCR1B := wr8 (t.TCCR1B &&& compl16 (_BV CS10 ||| _BV CS11 ||| _BV CS12)) }
  { t with TCCR1B := wr8 (t.TCCR1B ||| t.clockSelectBits) }

/-- The `switch (clockSelectBits)` of `read()` and `getCapture()`: the
left-shift amount of the selected prescaler. -/
def scaleOf (clockSelectBits : Nat) : Nat :=
  match clockSelectBits with
  | 1 => 0
  | 2 => 3
  | 3 => 6
  | 4 => 8
  | 5 => 10
  | _ => 0

/-! ## PWM -/

/-- The method `TimerOne::resume()`. -/
def resume (t : TimerOne) : TimerOne :=
  { t with TCCR1B := wr8 (t.TCCR1B ||| t.clockSelectBits) }

/-- The method `TimerOne::stop()`. -/
def stop (t : TimerOne) : TimerOne :=
  { t with TCCR1B := wr8 (t.TCCR1B &&& compl16 (_BV CS10 ||| _BV CS11 ||| _BV CS12)) }

/-- The method `TimerOne::initialize(long microseconds)`. -/
def initialise (microseconds : Int) (t : TimerOne) : TimerOne :=
  let t := { t with TCCR1A := 0 }
  let t := { t with TCCR1B := wr8 (_BV WGM13) }
  setPeriod (ofSigned microseconds) t

/-- The local `dutyCycle` of `setPwmDuty` after lines 68-71: the
`unsigned long` product of `pwmPeriod` and `duty`, shifted right by 10. -/
def dutyToCompare (pwmPeriod : Nat) (duty : Int) : Nat :=
  let dutyCycle : Nat := toULong pwmPeriod
  let dutyCycle := toULong (dutyCycle * ofSigned duty)
  dutyCycle >>> 10

/-- The method `TimerOne::setPwmDuty(char pin, int duty)`. -/
def setPwmDuty (pin : Int) (duty : Int) (t : TimerOne) : TimerOne :=
  let dutyCycle := dutyToCompare t.pwmPeriod duty
  let t := { t with oldSREG := t.SREG }
  let t := cli t
  let t :=
    if pin = 1 ∨ pin = 5 then { t with OCR1A := wr16 dutyCycle }
    else if pin = 2 ∨ pin = 4 then { t with OCR1B := wr16 dutyCycle }
    else t
  { t with SREG := t.oldSREG }

/-- The method `TimerOne::pwm(char pin, int duty, long microseconds)`. -/
def pwm (pin : Int) (duty : Int) (microseconds : Int) (t : TimerOne) : TimerOne :=
  let t := { t with TCCR1A := 0 }
  let t := { t with TCCR1B := 0 }
  let t := if microseconds > 0 then setPeriod (ofSigned microseconds) t else t
  let t := setPwmDuty pin duty t
  let t := { t with TCCR1A := wr8 0x82 }
  let t := { t with TCCR1B := wr8 (t.TCCR1B ||| 0x18) }
  let t :=
    if pin = 1 ∨ pin = 5 then
      let t := { t with DDRD := wr8 (t.DDRD ||| _BV DDD5) }
      { t with TCCR1A := wr8 (t.TCCR1A ||| _BV COM1A1) }
    else if pin = 2 ∨ pin = 4 then
      let t := { t with DDRD := wr8 (t.DDRD ||| _BV DDD4) }
      { t with TCCR1A := wr8 (t.TCCR1A ||| _BV COM1B1) }
    else t
  resume t

/-- The method `TimerOne::disablePwm(char pin)`. -/
def disablePwm (pin : Int) (t : TimerOne) : TimerOne :=
  if pin = 1 ∨ pin = 5 then { t with TCCR1A := wr8 (t.TCCR1A &&& compl16 (_BV COM1A1)) }
  else if pin = 2 ∨ pin = 4 then { t with TCCR1A := wr8 (t.TCCR1A &&& compl16 (_BV COM1B1)) }
  else t

/-! ## Periodic interrupt -/

/-- The method `TimerOne::attachInterrupt(void (*isr)(), long microseconds)`. -/
def attachInterrupt (isr : Option Nat) (microseconds : Int) (t : TimerOne) : TimerOne :=
  let t := if microseconds > 0 then setPeriod (ofSigned microseconds) t else t
  let t := { t with isrCallback := isr }
  let t := { t with TIMSK1 := wr8 (_BV TOIE1) }
  resume t

/-- The method `TimerOne::detachInterrupt()`. -/
def detachInterrupt (t : TimerOne) : TimerOne :=
  { t with TIMSK1 := wr8 (t.TIMSK1 &&& compl16 (_BV TOIE1)) }

/-- The handler `ISR(TIMER1_OVF_vect)`.  The user procedures are outside the
driver: `call f` is the effect on the state of running the procedure `f`. -/
def ovfISR (call : Nat → TimerOne → TimerOne) (t : TimerOne) : TimerOne :=
  let t := { t with nOverflows := toULong (t.nOverflows + 1) }
  match t.isrCallback with
  | some f => call f t
  | none => t

/-- The body shared by the waiting loops of `start()` and `read()`: save
`SREG`, `cli()`, read `TCNT1`, restore `SREG`.  The counter is driven by the
hardware: `x` is the value it shows at this read. -/
def sampleTCNT1 (x : Nat) (t : TimerOne) : TimerOne :=
  let t := { t with oldSREG := t.SREG }
  let t := cli t
  let t := { t with TCNT1 := wr16 x }
  { t with SREG := t.oldSREG }

/-- The `do ... while (tcnt1 == 0)` loop of `start()`.  The hardware counter
is sampled once per iteration; `samples` are the values it shows. -/
def startLoop : List Nat → TimerOne → Option TimerOne
  | [], _ => none
  | x :: xs, t =>
    let t := sampleTCNT1 x t
    let tcnt1 := t.TCNT1
    if tcnt1 = 0 then startLoop xs t else some t

/-- The method `TimerOne::start()`; `none` when the counter never leaves
zero within `samples`. -/
def start (samples : List Nat) (t : TimerOne) : Option TimerOne :=
  let t := { t with TIMSK1 := wr8 (t.TIMSK1 &&& compl16 (_BV TOIE1)) }
  let t := { t with GTCCR := wr8 (t.GTCCR ||| _BV PSRSYNC) }
  let t := { t with oldSREG := t.SREG }
  let t := cli t
  let t := { t with TCNT1 := 0 }
  let t := { t with SREG := t.oldSREG }
  startLoop samples t

/-- The method `TimerOne::restart()`. -/
def restart (samples : List Nat) (t : TimerOne) : Option TimerOne :=
  start samples t

/-! ## Readback -/

/-- The `do ... while (tcnt1 == tmp)` loop of `read()`: returns the first
sample that differs from `tmp`. -/
def readLoop (tmp : Nat) : List Nat → TimerOne → Option (Nat × TimerOne)
  | [], _ => none
  | x :: xs, t =>
    let t := sampleTCNT1 x t
    let tcnt1 := t.TCNT1
    if tcnt1 = tmp then readLoop tmp xs t else some (tcnt1, t)

/-- Line 202 of `read()`: the elapsed tick count from the first sample `tmp`,
the later sample `tcnt1` and the top register. -/
def readTicks (ICR1 tmp tcnt1 : Nat) : Nat :=
  if tcnt1 > tmp then tmp
  else ofSigned (toLong (wr16 (ICR1 + 65536 - tcnt1)) + toLong ICR1)

/-- Line 203 of `read()` and line 305 of `getCapture()`: ticks to
microseconds, shifted by the prescaler scale, in `unsigned long`. -/
def toMicros (ticks scale : Nat) : Nat :=
  toULong ((toULong (ticks * 1000) / (F_CPU / 1000)) <<< scale)

/-- The method `TimerOne::read()`.  The first sample is the current
`TCNT1`; `samples` are the values the counter shows in the waiting loop.
Returns `none` when the counter never moves within `samples`. -/
def read (samples : List Nat) (t : TimerOne) : Option (Nat × TimerOne) :=
  let t := sampleTCNT1 t.TCNT1 t
  let tmp := t.TCNT1
  let scale := scaleOf t.clockSelectBits
  match readLoop tmp samples t with
  | none => none
  | some (tcnt1, t) =>
    let tmp := readTicks t.ICR1 tmp tcnt1
    some (toMicros tmp scale, t)

/-! ## Input capture -/

/-- The method `TimerOne::startCapture(unsigned long microseconds)`. -/
def startCapture (microseconds : Nat) (t : TimerOne) : TimerOne :=
  let t := { t with TCCR1A := 0 }
  let t := { t with TCCR1B := 0 }
  let t := { t with DDRD := wr8 (t.DDRD &&& compl16 (_BV DDD6)) }
  let t := { t with TCCR1B := wr8 (_BV CS12) }
  let t := if toULong microseconds > 0 then setPeriod (toULong (toULong microseconds <<< 1)) t else t
  let t := { t with TCCR1B := wr8 (t.TCCR1B ||| _BV ICES1) }
  let t := { t with hValue := 0 }
  let t := { t with lValue := 0 }
  let t := { t with nOverflows := 0 }
  let t := { t with TIMSK1 := wr8 (_BV ICIE1) }
  let t := { t with TIMSK1 := wr8 (t.TIMSK1 ||| _BV TOIE1) }
  resume t

/-- The method `TimerOne::stopCapture()`. -/
def stopCapture (t : TimerOne) : TimerOne :=
  let t := { t with TIMSK1 := wr8 (t.TIMSK1 &&& compl16 (_BV ICIE1 ||| _BV TOIE1)) }
  stop t

/-- The method `TimerOne::icpCallback()`, run by `ISR(TIMER1_CAPT_vect)`. -/
def icpCallback (t : TimerOne) : TimerOne :=
  let t := { t with TCNT1 := 0 }
  let t :=
    if t.TCCR1B.testBit ICES1 then
      let t := { t with lValue := toULong t.ICR1 }
      let t := if t.nOverflows > 0 then
          { t with lValue := toULong (t.lValue + toULong (t.nOverflows * 65536)) } else t
      { t with pioLog := (2, true) :: t.pioLog }
    else
      let t := { t with hValue := toULong t.ICR1 }
      let t := if t.nOverflows > 0 then
          { t with hValue := toULong (t.hValue + toULong (t.nOverflows * 65536)) } else t
      { t with pioLog := (2, false) :: t.pioLog }
  let t := { t with nOverflows := 0 }
  { t with TCCR1B := wr8 (t.TCCR1B ^^^ _BV ICES1) }

/-- The method `TimerOne::getCapture(int state)`. -/
def getCapture (state : Int) (t : TimerOne) : Nat :=
  let result : Nat :=
    if state = 1 then toULong t.hValue
    else if state = 0 then toULong t.lValue
    else toULong (t.hValue + t.lValue)
  let scale := scaleOf t.clockSelectBits
  toMicros result scale

/-! ## Event counter -/

/-- The method `TimerOne::startCounter(int edge)`. -/
def startCounter (edge : Int) (t : TimerOne) : TimerOne :=
  let t := { t with TCCR1A := 0 }
  let t := { t with TCCR1B := 0 }
  let t := { t with DDRB := wr8 (t.DDRB &&& compl16 (_BV DDB1)) }
  let t := { t with clockSelectBits := _BV CS12 }
  let t := { t with clockSelectBits := t.clockSelectBits ||| _BV CS11 }
  let t := if edge > 0 then { t with clockSelectBits := t.clockSelectBits ||| _BV CS10 } else t
  let t := { t with nOverflows := 0 }
  let t := { t with oldSREG := t.SREG }
  let t := cli t
  let t := { t with TCNT1 := 0 }
  let t := { t with SREG := t.oldSREG }
  let t := { t with TIMSK1 := wr8 (_BV TOIE1) }
  resume t

/-- The method `TimerOne::getCounter(int reset)`: the returned count and the
state left behind. -/
def getCounter (reset : Int) (t : TimerOne) : Nat × TimerOne :=
  let t := { t with oldSREG := t.SREG }
  let t := cli t
  let tcnt1 : Nat := t.TCNT1
  let tcnt1 := if t.nOverflows > 0 then toULong (tcnt1 + toULong (t.nOverflows * 65536)) else tcnt1
  let t := if reset > 0 then { { t with TCNT1 := 0 } with nOverflows := 0 } else t
  let t := { t with SREG := t.oldSREG }
  (tcnt1, t)

/-! ## Hardware events and scenario states -/

/-- The overflow event delivered `k` times in a row: `k` runs of
`ISR(TIMER1_OVF_vect)`. -/
def ovfEvents (call : Nat → TimerOne → TimerOne) : Nat → TimerOne → TimerOne
  | 0, t => t
  | k + 1, t => ovfEvents call k (ovfISR call t)

/-- The hardware counter register `TCNT1` comes to hold `c`. -/
def counterAt (c : Nat) (t : TimerOne) : TimerOne :=
  { t with TCNT1 := wr16 c }

/-- The capture unit latches the counter value `c` into `ICR1`. -/
def captureAt (c : Nat) (t : TimerOne) : TimerOne :=
  { t with ICR1 := wr16 c }

/-- A user procedure table in which every procedure leaves the driver alone. -/
def noCall : Nat → TimerOne → TimerOne :=
  fun _ t => t

/-- A state in which three overflows have been counted and the counter
stands at 7. -/
def overflowed : TimerOne :=
  { powerOn with nOverflows := 3, TCNT1 := 7 }

/-- A state in which 65536 overflows have been counted and the counter
stands at 7: the extended count `7 + 65536 * 65536` no longer fits 32 bits. -/
def manyOverflows : TimerOne :=
  { powerOn with nOverflows := 65536, TCNT1 := 7 }

/-- A state with the global interrupt flag set (`SREG = 0x80`), as in
main-line code. -/
def interruptsOn : TimerOne :=
  { powerOn with SREG := 128 }

/-- A capture-mode state: rising edge armed at the /8 prescaler, two
overflows counted, `ICR1` holding 100, earlier latches 11 and 22. -/
def captureDemo : TimerOne :=
  { powerOn with TCCR1B := 66, clockSelectBits := 2, nOverflows := 2, ICR1 := 100,
                 hValue := 11, lValue := 22 }

/-! ## The prescaler search in the words of the spec -/

/-- The cumulative divisors in the order tried, each with its selector. -/
def specDivisors : List (Nat × Nat) :=
  [(1, 1), (8, 2), (64, 3), (256, 4), (1024, 5)]

/-- The search as the spec words it: go through the divisors in order and
take the first one whose quotient fits the resolution; the result is the
quotient and the selector. -/
def specFirstFit (cycles : Nat) : List (Nat × Nat) → Option (Nat × Nat)
  | [] => none
  | (d, sel) :: rest =>
    if cycles / d < 65536 then some (cycles / d, sel) else specFirstFit cycles rest

/-- The effective period of a configuration, in cycles: the top value
shifted by the scale of the selected prescaler. -/
def effPeriod (t : TimerOne) : Nat :=
  t.pwmPeriod <<< scaleOf t.clockSelectBits

/-! ## Arithmetic of the prescaler search -/

/-- The prescaler search on a request whose cycle count fits a positive
`long`: the local `cycles` is `8 * microseconds` and the five tests are
tests on its quotients by 1, 8, 64, 256 and 1024. -/
theorem setPeriodSearch_of_lt (P : Nat) (h : 8 * P < 2147483648) :
    setPeriodSearch P =
      if 8 * P < 65536 then (((8 * P : Nat) : Int), 1)
      else if 8 * P / 8 < 65536 then (((8 * P / 8 : Nat) : Int), 2)
      else if 8 * P / 64 < 65536 then (((8 * P / 64 : Nat) : Int), 3)
      else if 8 * P / 256 < 65536 then (((8 * P / 256 : Nat) : Int), 4)
      else if 8 * P / 1024 < 65536 then (((8 * P / 1024 : Nat) : Int), 5)
      else (65535, 5) := by
  have hP : P % 4294967296 = P := Nat.mod_eq_of_lt (by omega)
  have h8 : 8 * P % 4294967296 = 8 * P := Nat.mod_eq_of_lt (by omega)
  simp only [setPeriodSearch, toLong, toULong, F_CPU, RESOLUTION, _BV, CS10, CS11, CS12,
    Int.shiftRight_eq_div_pow]
  simp only [hP, h8, h, if_true, Int.shiftRight_eq_div_pow, Nat.shiftLeft_eq]
  have e1 : (1 * 2 ^ 0 : Nat) = 1 := by decide
  have e2 : (1 * 2 ^ 1 : Nat) = 2 := by decide
  have e3 : (1 * 2 ^ 1 ||| 1 * 2 ^ 0 : Nat) = 3 := by decide
  have e4 : (1 * 2 ^ 2 : Nat) = 4 := by decide
  have e5 : (1 * 2 ^ 2 ||| 1 * 2 ^ 0 : Nat) = 5 := by decide
  simp only [e1, e2, e3, e4, e5]
  push_cast
  split_ifs <;> first | rfl | omega | (simp only [Prod.mk.injEq, and_true]; omega)

/-- Storing a non-negative `long` into a 16-bit location keeps its low 16 bits. -/
theorem wr16s_natCast (n : Nat) : wr16s (n : Int) = n % 65536 := by
  unfold wr16s
  omega

/-- The member `clockSelectBits` after `setPeriod` is the selector found by the search. -/
theorem setPeriod_clockSelectBits (P : Nat) (t : TimerOne) :
    (setPeriod P t).clockSelectBits = (setPeriodSearch P).2 := rfl

/-- The member `pwmPeriod` after `setPeriod` is the truncated final `cycles`. -/
theorem setPeriod_pwmPeriod (P : Nat) (t : TimerOne) :
    (setPeriod P t).pwmPeriod = wr16s (setPeriodSearch P).1 := rfl

/-- The register `ICR1` after `setPeriod` is the 16-bit store of `pwmPeriod`. -/
theorem setPeriod_ICR1 (P : Nat) (t : TimerOne) :
    (setPeriod P t).ICR1 = wr16 (setPeriod P t).pwmPeriod := rfl

/-- In the range where `8 * microseconds` is a positive `long`, the top value
fits 16 bits, so `ICR1` and `pwmPeriod` agree. -/
theorem setPeriod_pwmPeriod_lt (P : Nat) (t : TimerOne) :
    (setPeriod P t).pwmPeriod < 65536 := by
  rw [setPeriod_pwmPeriod]
  unfold wr16s
  omega

/-! ## Claims about `setPeriod` -/

/-- C1 (the code at the failing input): the request of 268435456 us exceeds the
maximum representable period of 8388480 us, yet `setPeriod` does not saturate:
`8 * 268435456 = 2^31` becomes the negative `long` `-2^31`, the first test
`cycles < RESOLUTION` succeeds, and the call leaves `clockSelectBits = 1`
(the /1 selector, not 5) and `pwmPeriod = ICR1 = 0` (not 65535). -/
theorem setPeriod_wraps_at_two_pow_28 (t : TimerOne) :
    8388480 < 268435456 ∧
    (setPeriod 268435456 t).clockSelectBits = 1 ∧
    (setPeriod 268435456 t).pwmPeriod = 0 ∧
    (setPeriod 268435456 t).ICR1 = 0 ∧
    (setPeriod 268435456 t).clockSelectBits ≠ (_BV CS12 ||| _BV CS10) ∧
    (setPeriod 268435456 t).pwmPeriod ≠ RESOLUTION - 1 := by
  have hs : setPeriodSearch 268435456 = (-2147483648, 1) := by decide
  rw [setPeriod_ICR1, setPeriod_pwmPeriod, setPeriod_clockSelectBits, hs]
  decide

/-- Saturation where the cycle count does not wrap: for a request above the
maximum representable period with `8 * microseconds < 2^31`, `setPeriod`
selects /1024 and the top value 65535. -/
theorem setPeriod_saturates_of_lt (P : Nat) (t : TimerOne)
    (hlo : 8388480 < P) (hhi : 8 * P < 2147483648) :
    (setPeriod P t).clockSelectBits = 5 ∧ (setPeriod P t).pwmPeriod = 65535 ∧
      (setPeriod P t).ICR1 = 65535 := by
  rw [setPeriod_ICR1, setPeriod_pwmPeriod, setPeriod_clockSelectBits,
    setPeriodSearch_of_lt P hhi]
  have e : wr16s 65535 = 65535 := by decide
  split_ifs <;> dsimp only <;> simp only [wr16s_natCast, wr16, e] <;>
    refine ⟨?_, ?_, ?_⟩ <;> first | trivial | omega

/-- C2: period round trip.  For every request `P` with `8 * P < 2^26`, after
`setPeriod P` the configured period `pwmPeriod << s`, with `s` the scale that
`read()`/`getCapture()` derive from `clockSelectBits`, is at most `8 * P` and
misses it by less than one tick `2^s` of the selected prescaler. -/
theorem setPeriod_round_trip (P : Nat) (t : TimerOne) (h : 8 * P < 67108864) :
    (setPeriod P t).pwmPeriod <<< scaleOf (setPeriod P t).clockSelectBits ≤ 8 * P ∧
    8 * P < (setPeriod P t).pwmPeriod <<< scaleOf (setPeriod P t).clockSelectBits
      + 2 ^ scaleOf (setPeriod P t).clockSelectBits := by
  rw [setPeriod_pwmPeriod, setPeriod_clockSelectBits, setPeriodSearch_of_lt P (by omega)]
  split_ifs <;> simp only [wr16s_natCast, scaleOf, Nat.shiftLeft_eq] <;> omega

/-- C2 at the request of 1000 us from the power-on state. -/
theorem setPeriod_round_trip_witness :
    (setPeriod 1000 powerOn).pwmPeriod <<< scaleOf (setPeriod 1000 powerOn).clockSelectBits
        ≤ 8 * 1000 ∧
    8 * 1000 < (setPeriod 1000 powerOn).pwmPeriod
        <<< scaleOf (setPeriod 1000 powerOn).clockSelectBits
      + 2 ^ scaleOf (setPeriod 1000 powerOn).clockSelectBits :=
  setPeriod_round_trip 1000 powerOn (by decide)

/-- C3 (as stated, refuted): from the power-on state `setPeriod(1000)` does
not select the /8 prescaler with top value 1000. -/
theorem setPeriod_1000_not_div8 :
    ¬ ((setPeriod 1000 powerOn).clockSelectBits = _BV CS11 ∧
       (setPeriod 1000 powerOn).pwmPeriod = 1000 ∧
       (setPeriod 1000 powerOn).ICR1 = 1000) := by
  decide

/-- C3 (amended): with clock frequency 16,000,000, `setPeriod(1000)` selects
the /1 prescaler (`clockSelectBits = CS10`) and sets the top value
(`pwmPeriod` and `ICR1`) to 8000, since `cycles = 8 * 1000 = 8000` already
fits the resolution. -/
theorem setPeriod_1000_selects_div1 (t : TimerOne) :
    (setPeriod 1000 t).clockSelectBits = _BV CS10 ∧
    (setPeriod 1000 t).pwmPeriod = 8000 ∧
    (setPeriod 1000 t).ICR1 = 8000 := by
  have hs : setPeriodSearch 1000 = (8000, 1) := by decide
  rw [setPeriod_ICR1, setPeriod_pwmPeriod, setPeriod_clockSelectBits, hs]
  decide

/-! ## Claims about the PWM duty cycle -/

/-- For a 16-bit period and a 10-bit duty the `unsigned long` product of
`setPwmDuty` does not wrap: the local `dutyCycle` is the exact quotient. -/
theorem dutyToCompare_eq (p : Nat) (d : Int) (hp : p < 65536) (h0 : 0 ≤ d) (h1 : d ≤ 1023) :
    dutyToCompare p d = p * d.toNat / 1024 := by
  have hd : ofSigned d = d.toNat := by unfold ofSigned; omega
  have hd' : d.toNat ≤ 1023 := by omega
  have hmul : p * d.toNat ≤ 65535 * 1023 := Nat.mul_le_mul (by omega) hd'
  simp only [dutyToCompare, toULong, hd, Nat.shiftRight_eq_div_pow]
  rw [Nat.mod_eq_of_lt (by omega : p < 4294967296), Nat.mod_eq_of_lt (by omega)]

/-- The quotient `p * d / 1024` of a 16-bit `p` and a 10-bit `d` is at most `p`. -/
theorem duty_quot_le (p d : Nat) (hd : d ≤ 1023) : p * d / 1024 ≤ p := by
  have h : p * d ≤ p * 1024 := Nat.mul_le_mul_left p (by omega)
  have h2 : p * d / 1024 ≤ p * 1024 / 1024 := Nat.div_le_div_right h
  simpa using h2

/-- Channel A: `setPwmDuty` stores the local `dutyCycle` in `OCR1A`. -/
theorem setPwmDuty_OCR1A (pin d : Int) (t : TimerOne) (h : pin = 1 ∨ pin = 5) :
    (setPwmDuty pin d t).OCR1A = wr16 (dutyToCompare t.pwmPeriod d) := by
  simp [setPwmDuty, cli, h]

/-- Channel B: `setPwmDuty` stores the local `dutyCycle` in `OCR1B`. -/
theorem setPwmDuty_OCR1B (pin d : Int) (t : TimerOne) (h : pin = 2 ∨ pin = 4) :
    (setPwmDuty pin d t).OCR1B = wr16 (dutyToCompare t.pwmPeriod d) := by
  have h1 : ¬ (pin = 1 ∨ pin = 5) := by omega
  simp [setPwmDuty, cli, h, h1]

/-- The compare value stored for a 16-bit period and a 10-bit duty. -/
theorem wr16_dutyToCompare (p : Nat) (d : Int) (hp : p < 65536) (h0 : 0 ≤ d) (h1 : d ≤ 1023) :
    wr16 (dutyToCompare p d) = p * d.toNat / 1024 := by
  rw [dutyToCompare_eq p d hp h0 h1]
  have := duty_quot_le p d.toNat (by omega)
  unfold wr16
  omega

/-- C4: duty-cycle computation of `setPwmDuty`.  For every `pwmPeriod` in
0..65535 and duties `d1 ≤ d2` in 0..1023, the compare value written to the
selected channel register (`OCR1A` for pin 1 or 5, `OCR1B` for pin 2 or 4) is
`floor(pwmPeriod * d1 / 1024)`; it is 0 for duty 0; for duty 1023 it lies
between `pwmPeriod - ceil(pwmPeriod / 1024)` and `pwmPeriod`; and it is
monotone non-decreasing in the duty. -/
theorem setPwmDuty_compare (t : TimerOne) (pin d1 d2 : Int)
    (hp : t.pwmPeriod < 65536) (h0 : 0 ≤ d1) (h12 : d1 ≤ d2) (h2 : d2 ≤ 1023) :
    (pin = 1 ∨ pin = 5 →
      (setPwmDuty pin d1 t).OCR1A = t.pwmPeriod * d1.toNat / 1024 ∧
      (setPwmDuty pin 0 t).OCR1A = 0 ∧
      t.pwmPeriod ≤ (setPwmDuty pin 1023 t).OCR1A + (t.pwmPeriod + 1023) / 1024 ∧
      (setPwmDuty pin 1023 t).OCR1A ≤ t.pwmPeriod ∧
      (setPwmDuty pin d1 t).OCR1A ≤ (setPwmDuty pin d2 t).OCR1A) ∧
    (pin = 2 ∨ pin = 4 →
      (setPwmDuty pin d1 t).OCR1B = t.pwmPeriod * d1.toNat / 1024 ∧
      (setPwmDuty pin 0 t).OCR1B = 0 ∧
      t.pwmPeriod ≤ (setPwmDuty pin 1023 t).OCR1B + (t.pwmPeriod + 1023) / 1024 ∧
      (setPwmDuty pin 1023 t).OCR1B ≤ t.pwmPeriod ∧
      (setPwmDuty pin d1 t).OCR1B ≤ (setPwmDuty pin d2 t).OCR1B) := by
  have e1 := wr16_dutyToCompare t.pwmPeriod d1 hp h0 (by omega)
  have e2 := wr16_dutyToCompare t.pwmPeriod d2 hp (by omega) h2
  have ez := wr16_dutyToCompare t.pwmPeriod 0 hp (by omega) (by omega)
  have em := wr16_dutyToCompare t.pwmPeriod 1023 hp (by omega) (by omega)
  have hz : t.pwmPeriod * (0 : Int).toNat / 1024 = 0 := by simp
  have hm : (1023 : Int).toNat = 1023 := by decide
  have hmono : t.pwmPeriod * d1.toNat / 1024 ≤ t.pwmPeriod * d2.toNat / 1024 :=
    Nat.div_le_div_right (Nat.mul_le_mul_left _ (by omega))
  rw [hm] at em
  constructor
  · intro h
    simp only [setPwmDuty_OCR1A _ _ _ h, e1, e2, ez, em, hz]
    refine ⟨trivial, trivial, ?_, ?_, hmono⟩ <;> omega
  · intro h
    simp only [setPwmDuty_OCR1B _ _ _ h, e1, e2, ez, em, hz]
    refine ⟨trivial, trivial, ?_, ?_, hmono⟩ <;> omega

/-- C4 at the state left by `setPeriod(1000)` (top value 8000), pin 1,
duties 512 and 1023: the compare values are 4000, 0 and 7992. -/
theorem setPwmDuty_compare_witness :
    (setPwmDuty 1 512 (setPeriod 1000 powerOn)).OCR1A = 8000 * 512 / 1024 ∧
    (setPwmDuty 1 0 (setPeriod 1000 powerOn)).OCR1A = 0 ∧
    8000 ≤ (setPwmDuty 1 1023 (setPeriod 1000 powerOn)).OCR1A + (8000 + 1023) / 1024 ∧
    (setPwmDuty 1 1023 (setPeriod 1000 powerOn)).OCR1A ≤ 8000 ∧
    (setPwmDuty 1 512 (setPeriod 1000 powerOn)).OCR1A
      ≤ (setPwmDuty 1 1023 (setPeriod 1000 powerOn)).OCR1A :=
  (setPwmDuty_compare (setPeriod 1000 powerOn) 1 512 1023
    (by decide) (by decide) (by decide) (by decide)).1 (Or.inl rfl)

/-! ## Claims about `pwm` and `disablePwm` -/

/-- Bits of an 8-bit store of an OR with the mode bits `0x18`, after the
clock-select bits have been OR-ed in before and after. -/
theorem wr8_or_mode (c : Nat) : wr8 (wr8 (wr8 c ||| 24) ||| c) = wr8 (24 ||| c) := by
  unfold wr8
  apply Nat.eq_of_testBit_eq
  intro i
  have e : (256 : Nat) = 2 ^ 8 := by norm_num
  simp only [e, Nat.testBit_mod_two_pow, Nat.testBit_or]
  by_cases hi : i < 8 <;> simp [hi]
  cases c.testBit i <;> simp

/-- C6 (as stated, refuted): from the power-on state, `pwm` with the invalid
pin 3, duty 0 and no period argument does write registers: `TCCR1B` goes from
0 to `0x18`. -/
theorem pwm_invalid_pin_not_noop :
    ¬ ((pwm 3 0 0 powerOn).TCCR1A = powerOn.TCCR1A ∧
       (pwm 3 0 0 powerOn).TCCR1B = powerOn.TCCR1B ∧
       (pwm 3 0 0 powerOn).ICR1 = powerOn.ICR1 ∧
       (pwm 3 0 0 powerOn).OCR1A = powerOn.OCR1A ∧
       (pwm 3 0 0 powerOn).OCR1B = powerOn.OCR1B ∧
       (pwm 3 0 0 powerOn).DDRD = powerOn.DDRD) := by
  decide

/-- The bits of the constant `0x82` other than bit 7: only bit 1 is set. -/
theorem testBit_0x82 (i : Nat) (h : i ≠ 7) : Nat.testBit 0x82 i = decide (i = 1) := by
  by_cases hi : i < 8
  · interval_cases i <;> first | decide | exact absurd rfl h
  · have hf : Nat.testBit 0x82 i = false :=
      Nat.testBit_lt_two_pow (lt_of_lt_of_le (by norm_num : 0x82 < 2 ^ 8)
        (Nat.pow_le_pow_right (by norm_num) (by omega)))
    have hne : ¬ i = 1 := by omega
    rw [hf]
    simp [hne]

/-- With an invalid pin, `pwm` leaves in `TCCR1A` the constant written on
line 89. -/
theorem pwm_invalid_pin_TCCR1A (pin duty us : Int) (t : TimerOne)
    (h1 : pin ≠ 1) (h5 : pin ≠ 5) (h2 : pin ≠ 2) (h4 : pin ≠ 4) :
    (pwm pin duty us t).TCCR1A = 0x82 := by
  unfold pwm
  simp only [h1, h5, h2, h4, or_self, if_false]
  rfl

/-- With an invalid pin and a positive period argument, `pwm` leaves the
period members and `ICR1` as the `setPeriod` call of line 85 computes them. -/
theorem pwm_invalid_pin_period (pin duty us : Int) (t : TimerOne)
    (h1 : pin ≠ 1) (h5 : pin ≠ 5) (h2 : pin ≠ 2) (h4 : pin ≠ 4) (hus : us > 0) :
    (pwm pin duty us t).ICR1 = (setPeriod (ofSigned us) t).ICR1 ∧
    (pwm pin duty us t).pwmPeriod = (setPeriod (ofSigned us) t).pwmPeriod ∧
    (pwm pin duty us t).clockSelectBits = (setPeriod (ofSigned us) t).clockSelectBits := by
  unfold pwm
  simp [resume, setPwmDuty, cli, setPeriod, h1, h5, h2, h4, hus]

/-- With an invalid pin and no positive period argument, `pwm` leaves the
period members alone. -/
theorem pwm_invalid_pin_no_period (pin duty us : Int) (t : TimerOne)
    (h1 : pin ≠ 1) (h5 : pin ≠ 5) (h2 : pin ≠ 2) (h4 : pin ≠ 4) (hus : us ≤ 0) :
    (pwm pin duty us t).pwmPeriod = t.pwmPeriod ∧
    (pwm pin duty us t).clockSelectBits = t.clockSelectBits := by
  have hn : ¬ us > 0 := by omega
  unfold pwm
  simp [resume, setPwmDuty, cli, h1, h5, h2, h4, hn]

/-- C6 (amended): for every prior state, duty and period argument, and
every pin not in {1, 5, 2, 4}, `pwm` writes no channel register: `OCR1A`,
`OCR1B` and `DDRD` keep their values, and so do `ICR1`, `pwmPeriod` and
`clockSelectBits` when the period argument is not positive.  The mode setup
is unconditional: `TCCR1B` is rewritten to the fast-PWM mode bits `0x18`
together with the call's `clockSelectBits`; `TCCR1A` is rewritten so that,
whatever it held, `WGM11` is set and every other bit apart from `COM1A1` is
clear (nothing is said about `COM1A1`); and with a positive period argument
`ICR1`, `pwmPeriod` and `clockSelectBits` are those that `setPeriod` of that
argument configures. -/
theorem pwm_invalid_pin_frame (pin duty us : Int) (t : TimerOne)
    (h1 : pin ≠ 1) (h5 : pin ≠ 5) (h2 : pin ≠ 2) (h4 : pin ≠ 4) :
    (pwm pin duty us t).OCR1A = t.OCR1A ∧
    (pwm pin duty us t).OCR1B = t.OCR1B ∧
    (pwm pin duty us t).DDRD = t.DDRD ∧
    (us ≤ 0 → (pwm pin duty us t).ICR1 = t.ICR1) ∧
    (pwm pin duty us t).TCCR1B = wr8 (0x18 ||| (pwm pin duty us t).clockSelectBits) ∧
    (∀ i, i ≠ COM1A1 → (pwm pin duty us t).TCCR1A.testBit i = decide (i = WGM11)) ∧
    (us > 0 →
      (pwm pin duty us t).ICR1 = (setPeriod (ofSigned us) t).ICR1 ∧
      (pwm pin duty us t).pwmPeriod = (setPeriod (ofSigned us) t).pwmPeriod ∧
      (pwm pin duty us t).clockSelectBits = (setPeriod (ofSigned us) t).clockSelectBits) ∧
    (us ≤ 0 →
      (pwm pin duty us t).pwmPeriod = t.pwmPeriod ∧
      (pwm pin duty us t).clockSelectBits = t.clockSelectBits) := by
  have hA : ∀ i, i ≠ COM1A1 → (pwm pin duty us t).TCCR1A.testBit i = decide (i = WGM11) := by
    intro i hi
    rw [pwm_invalid_pin_TCCR1A pin duty us t h1 h5 h2 h4]
    exact testBit_0x82 i hi
  have hP := pwm_invalid_pin_period pin duty us t h1 h5 h2 h4
  have hQ := pwm_invalid_pin_no_period pin duty us t h1 h5 h2 h4
  have hold : (pwm pin duty us t).OCR1A = t.OCR1A ∧
      (pwm pin duty us t).OCR1B = t.OCR1B ∧
      (pwm pin duty us t).DDRD = t.DDRD ∧
      (us ≤ 0 → (pwm pin duty us t).ICR1 = t.ICR1) ∧
      (pwm pin duty us t).TCCR1B = wr8 (0x18 ||| (pwm pin duty us t).clockSelectBits) := by
    unfold pwm
    by_cases hus : us > 0
    · have hn : ¬ us ≤ 0 := by omega
      simp [resume, setPwmDuty, cli, setPeriod, h1, h5, h2, h4, hus, hn]
      rw [show wr8 0 = 0 from rfl, Nat.zero_or, wr8_or_mode]
    · have hn : us ≤ 0 := by omega
      simp [resume, setPwmDuty, cli, h1, h5, h2, h4, hus, hn]
      simp [wr8]
  exact ⟨hold.1, hold.2.1, hold.2.2.1, hold.2.2.2.1, hold.2.2.2.2, hA, hP, hQ⟩

/-- C6 (amended) at the invalid pin 3 from the state left by `pwm(2, 512,
1000)` (`TCCR1A = 0xA2`, `OCR1B = 4000`): with no period argument the channel
registers and `ICR1` stay and the channel-B bit of `TCCR1A` is cleared by the
rewrite; with the period argument 100000 `ICR1` becomes 12500. -/
theorem pwm_invalid_pin_frame_witness :
    (pwm 3 0 0 (pwm 2 512 1000 powerOn)).OCR1A = (pwm 2 512 1000 powerOn).OCR1A ∧
    (pwm 3 0 0 (pwm 2 512 1000 powerOn)).OCR1B = (pwm 2 512 1000 powerOn).OCR1B ∧
    (pwm 3 0 0 (pwm 2 512 1000 powerOn)).DDRD = (pwm 2 512 1000 powerOn).DDRD ∧
    (pwm 3 0 0 (pwm 2 512 1000 powerOn)).ICR1 = (pwm 2 512 1000 powerOn).ICR1 ∧
    (pwm 3 0 0 (pwm 2 512 1000 powerOn)).TCCR1B
      = wr8 (0x18 ||| (pwm 3 0 0 (pwm 2 512 1000 powerOn)).clockSelectBits) ∧
    (pwm 3 0 0 (pwm 2 512 1000 powerOn)).TCCR1A.testBit COM1B1 = false ∧
    (pwm 3 0 0 (pwm 2 512 1000 powerOn)).TCCR1A.testBit WGM11 = true ∧
    (pwm 3 0 100000 (pwm 2 512 1000 powerOn)).ICR1 = 12500 :=
  ⟨(pwm_invalid_pin_frame 3 0 0 (pwm 2 512 1000 powerOn)
      (by decide) (by decide) (by decide) (by decide)).1,
   (pwm_invalid_pin_frame 3 0 0 (pwm 2 512 1000 powerOn)
      (by decide) (by decide) (by decide) (by decide)).2.1,
   (pwm_invalid_pin_frame 3 0 0 (pwm 2 512 1000 powerOn)
      (by decide) (by decide) (by decide) (by decide)).2.2.1,
   (pwm_invalid_pin_frame 3 0 0 (pwm 2 512 1000 powerOn)
      (by decide) (by decide) (by decide) (by decide)).2.2.2.1 (by decide),
   (pwm_invalid_pin_frame 3 0 0 (pwm 2 512 1000 powerOn)
      (by decide) (by decide) (by decide) (by decide)).2.2.2.2.1,
   (pwm_invalid_pin_frame 3 0 0 (pwm 2 512 1000 powerOn)
      (by decide) (by decide) (by decide) (by decide)).2.2.2.2.2.1 COM1B1 (by decide),
   (pwm_invalid_pin_frame 3 0 0 (pwm 2 512 1000 powerOn)
      (by decide) (by decide) (by decide) (by decide)).2.2.2.2.2.1 WGM11 (by decide),
   ((pwm_invalid_pin_frame 3 0 100000 (pwm 2 512 1000 powerOn)
      (by decide) (by decide) (by decide) (by decide)).2.2.2.2.2.2.1 (by decide)).1.trans
      (by decide)⟩

/-- Clearing bit `b` of an 8-bit register value with `reg &= ~_BV(b)`. -/
theorem testBit_clear8 (x b i : Nat) (hx : x < 256) (hb : b < 8) :
    (wr8 (x &&& compl16 (_BV b))).testBit i = (decide (i ≠ b) && x.testBit i) := by
  unfold wr8 compl16 _BV
  have e : (256 : Nat) = 2 ^ 8 := by norm_num
  have e16 : (65535 : Nat) = 2 ^ 16 - 1 := by norm_num
  rw [e, Nat.testBit_mod_two_pow, Nat.testBit_and, Nat.testBit_xor, e16,
    Nat.testBit_two_pow_sub_one, Nat.shiftLeft_eq, Nat.one_mul, Nat.testBit_two_pow]
  by_cases hi : i < 8
  · have hi16 : i < 16 := by omega
    by_cases hib : i = b
    · subst hib; simp [hi16]
    · have hbi : ¬ b = i := fun h => hib h.symm
      simp [hi, hi16, hib, hbi]
  · have hxi : x.testBit i = false :=
      Nat.testBit_lt_two_pow (lt_of_lt_of_le hx (by
        calc (256 : Nat) = 2 ^ 8 := by norm_num
          _ ≤ 2 ^ i := Nat.pow_le_pow_right (by norm_num) (by omega)))
    simp [hi, hxi]

/-- C7: frame of `disablePwm`.  For every state (with the 8-bit register
`TCCR1A` holding an 8-bit value) and every pin, `disablePwm(pin)` changes
nothing outside `TCCR1A`; inside `TCCR1A` it clears `COM1A1` and keeps every
other bit when pin is 1 or 5, clears `COM1B1` and keeps every other bit when
pin is 2 or 4, and leaves the whole state unchanged for any other pin.  So
`TCCR1B`, the other channel's output-enable bit, `TIMSK1` and all derived
state are unchanged. -/
theorem disablePwm_frame (pin : Int) (t : TimerOne) (h : t.TCCR1A < 256) :
    { disablePwm pin t with TCCR1A := t.TCCR1A } = t ∧
    (pin = 1 ∨ pin = 5 → ∀ i,
      (disablePwm pin t).TCCR1A.testBit i = (decide (i ≠ COM1A1) && t.TCCR1A.testBit i)) ∧
    (pin = 2 ∨ pin = 4 → ∀ i,
      (disablePwm pin t).TCCR1A.testBit i = (decide (i ≠ COM1B1) && t.TCCR1A.testBit i)) ∧
    (pin ≠ 1 → pin ≠ 5 → pin ≠ 2 → pin ≠ 4 → disablePwm pin t = t) ∧
    (disablePwm pin t).TCCR1B = t.TCCR1B ∧
    (disablePwm pin t).TIMSK1 = t.TIMSK1 := by
  refine ⟨?_, ?_, ?_, ?_, ?_, ?_⟩
  · unfold disablePwm; split_ifs <;> rfl
  · intro hp i
    simp only [disablePwm, hp, if_true]
    exact testBit_clear8 t.TCCR1A COM1A1 i h (by decide)
  · intro hp i
    have hn : ¬ (pin = 1 ∨ pin = 5) := by omega
    simp only [disablePwm, hp, hn, if_true, if_false]
    exact testBit_clear8 t.TCCR1A COM1B1 i h (by decide)
  · intro h1 h5 h2 h4
    simp [disablePwm, h1, h5, h2, h4]
  · unfold disablePwm; split_ifs <;> rfl
  · unfold disablePwm; split_ifs <;> rfl

/-- C7 at the state left by `pwm(2, 512, 1000)`, disabling pin 2: only
`COM1B1` of `TCCR1A` is cleared. -/
theorem disablePwm_frame_witness :
    { disablePwm 2 (pwm 2 512 1000 powerOn) with TCCR1A := (pwm 2 512 1000 powerOn).TCCR1A }
      = pwm 2 512 1000 powerOn ∧
    (∀ i, (disablePwm 2 (pwm 2 512 1000 powerOn)).TCCR1A.testBit i
        = (decide (i ≠ COM1B1) && (pwm 2 512 1000 powerOn).TCCR1A.testBit i)) :=
  ⟨(disablePwm_frame 2 (pwm 2 512 1000 powerOn) (by decide)).1,
   (disablePwm_frame 2 (pwm 2 512 1000 powerOn) (by decide)).2.2.1 (Or.inl rfl)⟩

/-- The register `TCCR1A` after `pwm`: the constant `0x82` with the
requested channel's output bit OR-ed in; the prior state, the duty and the
period argument play no part. -/
theorem pwm_TCCR1A (pin duty us : Int) (t : TimerOne) :
    (pwm pin duty us t).TCCR1A =
      if pin = 1 ∨ pin = 5 then wr8 (wr8 0x82 ||| _BV COM1A1)
      else if pin = 2 ∨ pin = 4 then wr8 (wr8 0x82 ||| _BV COM1B1)
      else wr8 0x82 := by
  unfold pwm
  split_ifs <;> simp [resume, *]

/-- C8 (the code at the failing input): after `pwm` on pin 2 or pin 4, for
every prior state, duty and period argument, `TCCR1A` is `0xA2`: the
channel-B bit `COM1B1` is set, and the channel-A bit `COM1A1` is set as well
(not clear), because the constant `0x82` written before the pin test already
contains `COM1A1`. -/
theorem pwm_channelB_enables_channelA (t : TimerOne) (duty us : Int) :
    (pwm 2 duty us t).TCCR1A = 0xA2 ∧
    (pwm 2 duty us t).TCCR1A.testBit COM1B1 = true ∧
    (pwm 2 duty us t).TCCR1A.testBit COM1A1 = true ∧
    (pwm 4 duty us t).TCCR1A = 0xA2 ∧
    (pwm 4 duty us t).TCCR1A.testBit COM1B1 = true ∧
    (pwm 4 duty us t).TCCR1A.testBit COM1A1 = true := by
  rw [pwm_TCCR1A, pwm_TCCR1A]
  decide

/-- Channel A of `pwm`: after `pwm` on pin 1 or pin 5, `COM1A1` is set and
`COM1B1` is clear. -/
theorem pwm_channelA_bits (t : TimerOne) (duty us : Int) :
    (pwm 1 duty us t).TCCR1A.testBit COM1A1 = true ∧
    (pwm 1 duty us t).TCCR1A.testBit COM1B1 = false ∧
    (pwm 5 duty us t).TCCR1A.testBit COM1A1 = true ∧
    (pwm 5 duty us t).TCCR1A.testBit COM1B1 = false := by
  rw [pwm_TCCR1A, pwm_TCCR1A]
  decide

/-! ## Claims about input capture and readback -/

/-- C9: capture mode entry resets derived state.  For every prior state and
every argument, after `startCapture(microseconds)` the members `nOverflows`,
`hValue` and `lValue` are all zero. -/
theorem startCapture_resets (microseconds : Nat) (t : TimerOne) :
    (startCapture microseconds t).nOverflows = 0 ∧
    (startCapture microseconds t).hValue = 0 ∧
    (startCapture microseconds t).lValue = 0 := by
  unfold startCapture resume
  exact ⟨rfl, rfl, rfl⟩

/-- The waiting loop of `read()` ends at the first sample that differs from
`tmp`, and touches neither `ICR1` nor `clockSelectBits`. -/
theorem readLoop_first_change (tmp new : Nat) (pre rest : List Nat) (t : TimerOne)
    (hpre : ∀ x ∈ pre, wr16 x = tmp) (hne : wr16 new ≠ tmp) :
    ∃ t2, readLoop tmp (pre ++ new :: rest) t = some (wr16 new, t2) ∧
      t2.ICR1 = t.ICR1 ∧ t2.clockSelectBits = t.clockSelectBits := by
  induction pre generalizing t with
  | nil =>
    refine ⟨sampleTCNT1 new t, ?_, rfl, rfl⟩
    have h : (sampleTCNT1 new t).TCNT1 ≠ tmp := hne
    simp only [List.nil_append, readLoop, h, if_false]
    rfl
  | cons x xs ih =>
    have hx : (sampleTCNT1 x t).TCNT1 = tmp := hpre x (List.mem_cons_self x xs)
    have hxs : ∀ y ∈ xs, wr16 y = tmp := fun y hy => hpre y (List.mem_cons_of_mem x hy)
    obtain ⟨t2, h1, h2, h3⟩ := ih (sampleTCNT1 x t) hxs
    refine ⟨t2, ?_, h2, h3⟩
    simp only [List.cons_append, readLoop, hx, if_true]
    exact h1

/-- The tick-to-microsecond conversion does not wrap for at most two sweeps
of a 16-bit counter. -/
theorem toMicros_eq (ticks scale : Nat) (ht : ticks ≤ 131070) (hs : scale ≤ 10) :
    toMicros ticks scale = (ticks * 1000 / (F_CPU / 1000)) <<< scale := by
  unfold toMicros toULong F_CPU
  have h1 : ticks * 1000 % 4294967296 = ticks * 1000 := Nat.mod_eq_of_lt (by omega)
  rw [h1]
  apply Nat.mod_eq_of_lt
  rw [Nat.shiftLeft_eq]
  have hq : ticks * 1000 / (16000000 / 1000) ≤ 8191 := by omega
  have hp : 2 ^ scale ≤ 2 ^ 10 := Nat.pow_le_pow_right (by norm_num) hs
  calc ticks * 1000 / (16000000 / 1000) * 2 ^ scale ≤ 8191 * 2 ^ 10 := Nat.mul_le_mul hq hp
    _ < 4294967296 := by norm_num

/-- The scale derived from `clockSelectBits` is at most 10. -/
theorem scaleOf_le (c : Nat) : scaleOf c ≤ 10 := by
  unfold scaleOf
  split <;> omega

/-- C10: direction-aware readback in `read()`.  Let `old = TCNT1` be the
first sample, let the waiting loop see `old` any number of times and then
`new ≠ old`, and let `top = ICR1` (all 16-bit values).  Then `read()` returns.
If `new < old` and `new ≤ top`, the tick count is `(top - new) + top` and the
result is `(((top - new) + top) * 1000 / (F_CPU / 1000)) << scale`; if
`new > old`, the tick count is `old` and the result is
`((old * 1000) / (F_CPU / 1000)) << scale`.  Both are exact natural-number
values: no negative or 16-bit-wrapped difference enters. -/
theorem read_direction_aware (t : TimerOne) (pre rest : List Nat) (new : Nat)
    (hold : t.TCNT1 < 65536) (htop : t.ICR1 < 65536) (hnew : new < 65536)
    (hpre : ∀ x ∈ pre, x = t.TCNT1) (hne : new ≠ t.TCNT1) :
    (new < t.TCNT1 → new ≤ t.ICR1 →
      readTicks t.ICR1 t.TCNT1 new = (t.ICR1 - new) + t.ICR1 ∧
      (read (pre ++ new :: rest) t).map Prod.fst =
        some ((((t.ICR1 - new) + t.ICR1) * 1000 / (F_CPU / 1000)) <<< scaleOf t.clockSelectBits)) ∧
    (new > t.TCNT1 →
      readTicks t.ICR1 t.TCNT1 new = t.TCNT1 ∧
      (read (pre ++ new :: rest) t).map Prod.fst =
        some ((t.TCNT1 * 1000 / (F_CPU / 1000)) <<< scaleOf t.clockSelectBits)) := by
  have hw : wr16 new = new := Nat.mod_eq_of_lt hnew
  have hpre2 : ∀ x ∈ pre, wr16 x = t.TCNT1 := fun x hx => by
    rw [hpre x hx]; exact Nat.mod_eq_of_lt hold
  have hne2 : wr16 new ≠ t.TCNT1 := by rw [hw]; exact hne
  have hs : (sampleTCNT1 t.TCNT1 t).TCNT1 = t.TCNT1 := Nat.mod_eq_of_lt hold
  obtain ⟨t2, hl, hI, _⟩ := readLoop_first_change t.TCNT1 new pre rest
    (sampleTCNT1 t.TCNT1 t) hpre2 hne2
  have hI2 : t2.ICR1 = t.ICR1 := hI
  have hread : (read (pre ++ new :: rest) t).map Prod.fst
      = some (toMicros (readTicks t.ICR1 t.TCNT1 new) (scaleOf t.clockSelectBits)) := by
    unfold read
    simp only [hs, hl, Option.map_some', hw, hI2]
    rfl
  constructor
  · intro hlt hle
    have hticks : readTicks t.ICR1 t.TCNT1 new = (t.ICR1 - new) + t.ICR1 := by
      have hng : ¬ new > t.TCNT1 := by omega
      simp only [readTicks, hng, if_false, wr16, toLong, ofSigned]
      omega
    refine ⟨hticks, ?_⟩
    rw [hread, hticks, toMicros_eq _ _ (by omega) (scaleOf_le _)]
  · intro hgt
    have hticks : readTicks t.ICR1 t.TCNT1 new = t.TCNT1 := by
      simp only [readTicks, hgt, if_true]
    refine ⟨hticks, ?_⟩
    rw [hread, hticks, toMicros_eq _ _ (by omega) (scaleOf_le _)]

/-- C10 on a counter with top 100 at the /8 prescaler and first sample 5:
when the loop sees 5, 5, 3 the counter has turned round and `read()` returns
`(((100 - 3) + 100) * 1000 / 16000) << 3 = 96`; when it sees 5, 7 the
counter is still going up and `read()` returns `((5 * 1000) / 16000) << 3 = 0`. -/
theorem read_direction_aware_witness :
    (read [5, 5, 3] readDemo).map Prod.fst = some 96 ∧
    (read [5, 7] readDemo).map Prod.fst = some 0 :=
  ⟨((read_direction_aware readDemo [5, 5] [] 3 (by decide) (by decide) (by decide)
      (by decide) (by decide)).1 (by decide) (by decide)).2,
   ((read_direction_aware readDemo [5] [] 7 (by decide) (by decide) (by decide)
      (by decide) (by decide)).2 (by decide)).2⟩

/-! ## Claims about the event counter -/

/-- The value returned by `getCounter`: `TCNT1` extended by the overflow
count, in `unsigned long`. -/
theorem getCounter_fst (reset : Int) (t : TimerOne) :
    (getCounter reset t).1 =
      if t.nOverflows > 0 then toULong (t.TCNT1 + toULong (t.nOverflows * 65536))
      else t.TCNT1 := by
  simp only [getCounter, cli]

/-- With a positive reset flag `getCounter` leaves `TCNT1 = 0` and
`nOverflows = 0`. -/
theorem getCounter_reset_snd (reset : Int) (t : TimerOne) (hr : reset > 0) :
    (getCounter reset t).2.TCNT1 = 0 ∧ (getCounter reset t).2.nOverflows = 0 := by
  simp [getCounter, cli, hr]

/-- Without the reset flag `getCounter` leaves `TCNT1` and `nOverflows` alone. -/
theorem getCounter_zero_snd (t : TimerOne) :
    (getCounter 0 t).2.TCNT1 = t.TCNT1 ∧ (getCounter 0 t).2.nOverflows = t.nOverflows := by
  simp [getCounter, cli]

/-- C11 (as stated, refuted): with 65536 overflows counted and the counter at
7, `getCounter(1)` returns 7, not the pre-call count `7 + 65536 * 65536`: the
`unsigned long` sum of line 346 wraps modulo `2^32`. -/
theorem getCounter_wraps_past_32_bits :
    (getCounter 1 manyOverflows).1 = 7 ∧
    ¬ ((getCounter 1 manyOverflows).1
        = manyOverflows.TCNT1 + manyOverflows.nOverflows * 65536) := by
  decide

/-- C11 (amended): read-with-reset of the event counter.  For every state,
`getCounter(reset)` with `reset > 0` returns the pre-call count
`TCNT1 + nOverflows * 65536` whenever that count fits the 32-bit
`unsigned long` result (`TCNT1 + nOverflows * 65536 < 2^32`), and in every
state sets `TCNT1 = 0` and `nOverflows = 0`, so that a `getCounter(0)`
issued immediately afterwards returns 0; and `getCounter(0)` itself leaves
`TCNT1` and `nOverflows` unchanged, so two consecutive `getCounter(0)` calls
return the same value. -/
theorem getCounter_read_with_reset (reset : Int) (t : TimerOne) (hr : reset > 0) :
    (t.TCNT1 + t.nOverflows * 65536 < 4294967296 →
      (getCounter reset t).1 = t.TCNT1 + t.nOverflows * 65536) ∧
    (getCounter reset t).2.TCNT1 = 0 ∧
    (getCounter reset t).2.nOverflows = 0 ∧
    (getCounter 0 (getCounter reset t).2).1 = 0 ∧
    (getCounter 0 t).2.TCNT1 = t.TCNT1 ∧
    (getCounter 0 t).2.nOverflows = t.nOverflows ∧
    (getCounter 0 (getCounter 0 t).2).1 = (getCounter 0 t).1 := by
  obtain ⟨hT, hN⟩ := getCounter_reset_snd reset t hr
  obtain ⟨hT0, hN0⟩ := getCounter_zero_snd t
  refine ⟨?_, hT, hN, ?_, hT0, hN0, ?_⟩
  · intro hfit
    rw [getCounter_fst]
    unfold toULong
    split_ifs <;> omega
  · rw [getCounter_fst, hT, hN]
    rfl
  · rw [getCounter_fst, getCounter_fst, hT0, hN0]

/-- C11 (amended) on the state with three overflows counted and the counter at 7:
the read-with-reset returns `7 + 3 * 65536 = 196615` and the next read
returns 0. -/
theorem getCounter_read_with_reset_witness :
    (getCounter 1 overflowed).1 = 7 + 3 * 65536 ∧
    (getCounter 1 overflowed).2.TCNT1 = 0 ∧
    (getCounter 1 overflowed).2.nOverflows = 0 ∧
    (getCounter 0 (getCounter 1 overflowed).2).1 = 0 :=
  ⟨(getCounter_read_with_reset 1 overflowed (by decide)).1 (by decide),
   (getCounter_read_with_reset 1 overflowed (by decide)).2.1,
   (getCounter_read_with_reset 1 overflowed (by decide)).2.2.1,
   (getCounter_read_with_reset 1 overflowed (by decide)).2.2.2.1⟩

/-! ## Claims about the overflow count -/

/-- One overflow event adds one to `nOverflows` (in 32 bits), provided the
user procedure it may run does not itself write the member. -/
theorem ovfISR_nOverflows (call : Nat → TimerOne → TimerOne)
    (hcall : ∀ f s, (call f s).nOverflows = s.nOverflows) (t : TimerOne) :
    (ovfISR call t).nOverflows = toULong (t.nOverflows + 1) := by
  unfold ovfISR
  dsimp only
  split
  · rw [hcall]
  · rfl

/-- After `k` overflow events the count has advanced by `k` (in 32 bits). -/
theorem ovfEvents_nOverflows (call : Nat → TimerOne → TimerOne)
    (hcall : ∀ f s, (call f s).nOverflows = s.nOverflows) (k : Nat) (t : TimerOne)
    (hn : t.nOverflows < 4294967296) :
    (ovfEvents call k t).nOverflows = (t.nOverflows + k) % 4294967296 := by
  induction k generalizing t with
  | zero => simp only [ovfEvents, Nat.add_zero]; omega
  | succ k ih =>
    have h1 := ovfISR_nOverflows call hcall t
    unfold toULong at h1
    rw [ovfEvents, ih _ (by rw [h1]; omega), h1]
    omega

/-- The capture handler leaves `TCNT1 = 0` and `nOverflows = 0`. -/
theorem icpCallback_zeroes (t : TimerOne) :
    (icpCallback t).TCNT1 = 0 ∧ (icpCallback t).nOverflows = 0 := by
  unfold icpCallback
  dsimp only
  split_ifs <;> exact ⟨rfl, rfl⟩

/-- Entering the event-counter mode leaves `TCNT1 = 0` and `nOverflows = 0`. -/
theorem startCounter_zeroes (edge : Int) (t : TimerOne) :
    (startCounter edge t).TCNT1 = 0 ∧ (startCounter edge t).nOverflows = 0 := by
  unfold startCounter resume cli
  exact ⟨rfl, rfl⟩

/-- C12 (the code at the failing input): `start()` and `restart()` write zero
to `TCNT1` (line 145) but return with the three overflows counted before
still in `nOverflows`, where the claim says 0.  So after `startCounter(1)`,
three overflow events and a `start()` that sees the counter at 1,
`getCounter(0)` returns `1 + 3 * 65536 = 196609` although the counter was
just set to zero. -/
theorem start_keeps_nOverflows :
    (start [1] overflowed).map TimerOne.nOverflows = some 3 ∧
    (restart [1] overflowed).map TimerOne.nOverflows = some 3 ∧
    ¬ ((start [1] overflowed).map TimerOne.nOverflows = some 0) ∧
    (start [1] (ovfEvents noCall 3 (startCounter 1 powerOn))).map
      (fun s => (getCounter 0 s).1) = some 196609 := by
  decide

/-- The sibling paths of `start()`: the operations of the capture and
event-counter modes that write zero to `TCNT1` (`icpCallback`,
`startCounter`, `getCounter` with `reset > 0`) also leave `nOverflows = 0` on
return, for every prior state; hence after such an operation and `k` overflow
events (whose user procedure does not write the member, `k < 2^32`)
`nOverflows` is exactly `k`. -/
theorem counter_zeroing_resets_nOverflows (t : TimerOne) (edge reset : Int) (hr : reset > 0)
    (call : Nat → TimerOne → TimerOne)
    (hcall : ∀ f s, (call f s).nOverflows = s.nOverflows) (k : Nat) (hk : k < 4294967296) :
    ((icpCallback t).TCNT1 = 0 ∧ (icpCallback t).nOverflows = 0) ∧
    ((startCounter edge t).TCNT1 = 0 ∧ (startCounter edge t).nOverflows = 0) ∧
    ((getCounter reset t).2.TCNT1 = 0 ∧ (getCounter reset t).2.nOverflows = 0) ∧
    (ovfEvents call k (icpCallback t)).nOverflows = k ∧
    (ovfEvents call k (startCounter edge t)).nOverflows = k ∧
    (ovfEvents call k (getCounter reset t).2).nOverflows = k := by
  have h1 := icpCallback_zeroes t
  have h2 := startCounter_zeroes edge t
  have h3 := getCounter_reset_snd reset t hr
  refine ⟨h1, h2, h3, ?_, ?_, ?_⟩
  · rw [ovfEvents_nOverflows call hcall k _ (by rw [h1.2]; omega), h1.2]; omega
  · rw [ovfEvents_nOverflows call hcall k _ (by rw [h2.2]; omega), h2.2]; omega
  · rw [ovfEvents_nOverflows call hcall k _ (by rw [h3.2]; omega), h3.2]; omega

/-- The sibling paths of `start()` on the state with three overflows counted,
followed by five overflow events. -/
theorem counter_zeroing_resets_nOverflows_witness :
    ((icpCallback overflowed).TCNT1 = 0 ∧ (icpCallback overflowed).nOverflows = 0) ∧
    ((startCounter 1 overflowed).TCNT1 = 0 ∧ (startCounter 1 overflowed).nOverflows = 0) ∧
    ((getCounter 1 overflowed).2.TCNT1 = 0 ∧ (getCounter 1 overflowed).2.nOverflows = 0) ∧
    (ovfEvents noCall 5 (icpCallback overflowed)).nOverflows = 5 ∧
    (ovfEvents noCall 5 (startCounter 1 overflowed)).nOverflows = 5 ∧
    (ovfEvents noCall 5 (getCounter 1 overflowed).2).nOverflows = 5 :=
  counter_zeroing_resets_nOverflows overflowed 1 1 (by decide) noCall (fun _ _ => rfl) 5
    (by decide)

/-! ## Claims about the interrupt flag -/

/-- The waiting loop of `start()` returns with `SREG` as it found it. -/
theorem startLoop_SREG (samples : List Nat) (t t2 : TimerOne)
    (h : startLoop samples t = some t2) : t2.SREG = t.SREG := by
  induction samples generalizing t with
  | nil => simp [startLoop] at h
  | cons x xs ih =>
    simp only [startLoop] at h
    split_ifs at h with h0
    · exact (ih (sampleTCNT1 x t) h).trans rfl
    · cases h; rfl

/-- The waiting loop of `read()` returns with `SREG` as it found it. -/
theorem readLoop_SREG (tmp : Nat) (samples : List Nat) (t : TimerOne) (r : Nat × TimerOne)
    (h : readLoop tmp samples t = some r) : r.2.SREG = t.SREG := by
  induction samples generalizing t with
  | nil => simp [readLoop] at h
  | cons x xs ih =>
    simp only [readLoop] at h
    split_ifs at h with h0
    · exact (ih (sampleTCNT1 x t) h).trans rfl
    · cases h; rfl

/-- The method `setPeriod` returns with `SREG` as it found it. -/
theorem setPeriod_SREG (P : Nat) (t : TimerOne) : (setPeriod P t).SREG = t.SREG := rfl

/-- The method `setPwmDuty` returns with `SREG` as it found it. -/
theorem setPwmDuty_SREG (pin duty : Int) (t : TimerOne) :
    (setPwmDuty pin duty t).SREG = t.SREG := by
  unfold setPwmDuty; dsimp only; split_ifs <;> rfl

/-- C13: the interrupt-enable state is restored, not forced on.  For every
prior state (whatever `SREG` holds, global interrupt flag set or clear) and
every argument, each of `setPeriod`, `setPwmDuty`, `startCounter` and
`getCounter` returns with `SREG` equal to its value on entry; and so does
every other operation of the driver, so none enables interrupts. -/
theorem SREG_restored (t : TimerOne) (P : Nat) (pin duty us edge reset : Int)
    (isr : Option Nat) (samples : List Nat) :
    (setPeriod P t).SREG = t.SREG ∧
    (setPwmDuty pin duty t).SREG = t.SREG ∧
    (startCounter edge t).SREG = t.SREG ∧
    (getCounter reset t).2.SREG = t.SREG ∧
    (initialise us t).SREG = t.SREG ∧
    (pwm pin duty us t).SREG = t.SREG ∧
    (disablePwm pin t).SREG = t.SREG ∧
    (attachInterrupt isr us t).SREG = t.SREG ∧
    (detachInterrupt t).SREG = t.SREG ∧
    (resume t).SREG = t.SREG ∧
    (stop t).SREG = t.SREG ∧
    (startCapture P t).SREG = t.SREG ∧
    (stopCapture t).SREG = t.SREG ∧
    (icpCallback t).SREG = t.SREG ∧
    (∀ t2, start samples t = some t2 → t2.SREG = t.SREG) ∧
    (∀ r, read samples t = some r → r.2.SREG = t.SREG) := by
  refine ⟨rfl, setPwmDuty_SREG pin duty t, ?_, ?_, rfl, ?_, ?_, ?_, rfl, rfl, rfl, ?_, rfl,
    ?_, ?_, ?_⟩
  · unfold startCounter; dsimp only; split_ifs <;> rfl
  · unfold getCounter; dsimp only; split_ifs <;> rfl
  · unfold pwm resume; dsimp only
    split_ifs <;> simp only [setPwmDuty_SREG, setPeriod_SREG]
  · unfold disablePwm; split_ifs <;> rfl
  · unfold attachInterrupt; dsimp only; split_ifs <;> rfl
  · unfold startCapture; dsimp only; split_ifs <;> rfl
  · unfold icpCallback; dsimp only; split_ifs <;> rfl
  · intro t2 h
    unfold start at h
    exact (startLoop_SREG samples _ t2 h).trans rfl
  · intro r h
    unfold read at h
    dsimp only at h
    split at h
    · cases h
    · rename_i tcnt1 t3 hl
      cases h
      exact (readLoop_SREG _ samples (sampleTCNT1 t.TCNT1 t) (tcnt1, t3) hl).trans rfl

/-! ## Claims about the side effects of `setPeriod` -/

/-- The selector found by the prescaler search is one of 1, 2, 3, 4, 5. -/
theorem setPeriodSearch_snd (P : Nat) :
    (setPeriodSearch P).2 = 1 ∨ (setPeriodSearch P).2 = 2 ∨ (setPeriodSearch P).2 = 3 ∨
      (setPeriodSearch P).2 = 4 ∨ (setPeriodSearch P).2 = 5 := by
  simp only [setPeriodSearch]
  split_ifs <;> dsimp only <;> decide

/-- A bit at position 8 or above of an 8-bit value is clear; likewise
position 3 or above of a 3-bit value. -/
theorem testBit_of_lt_two_pow (x n i : Nat) (hx : x < 2 ^ n) (hi : n ≤ i) :
    x.testBit i = false :=
  Nat.testBit_lt_two_pow (lt_of_lt_of_le hx (Nat.pow_le_pow_right (by norm_num) hi))

/-- Lines 62-63 of `setPeriod` on an 8-bit `TCCR1B` and a 3-bit selector:
the low three bits become the selector, the other bits stay. -/
theorem testBit_setClock (x c i : Nat) (hx : x < 256) (hc : c < 8) :
    (wr8 (wr8 (x &&& compl16 (_BV CS10 ||| _BV CS11 ||| _BV CS12)) ||| c)).testBit i =
      if i < 3 then c.testBit i else x.testBit i := by
  have e7 : (_BV CS10 ||| _BV CS11 ||| _BV CS12) = 2 ^ 3 - 1 := by decide
  have e : (256 : Nat) = 2 ^ 8 := by norm_num
  have e16 : (65535 : Nat) = 2 ^ 16 - 1 := by norm_num
  unfold wr8 compl16
  rw [e7, e, e16]
  simp only [Nat.testBit_mod_two_pow, Nat.testBit_or, Nat.testBit_and, Nat.testBit_xor,
    Nat.testBit_two_pow_sub_one]
  by_cases h3 : i < 3
  · have h8 : i < 8 := by omega
    have h16 : i < 16 := by omega
    simp [h3, h8, h16]
  · have hci : c.testBit i = false := testBit_of_lt_two_pow c 3 i (by norm_num; exact hc) (by omega)
    by_cases h8 : i < 8
    · have h16 : i < 16 := by omega
      simp [h3, h8, h16, hci]
    · have hxi : x.testBit i = false :=
        testBit_of_lt_two_pow x 8 i (by norm_num; exact hx) (by omega)
      simp [h3, h8, hxi]

/-- C14: side effects of `setPeriod` are consistent and confined.  For every
prior state (with the 8-bit register `TCCR1B` holding an 8-bit value) and
every `microseconds`, after `setPeriod` the top register `ICR1` equals
`pwmPeriod`, the three clock-select bits `CS12..CS10` of `TCCR1B` equal
`clockSelectBits`, every other bit of `TCCR1B` (`WGM12`, `WGM13`, `ICES1`,
`ICNC1`, ...) is unchanged, and `TCCR1A` and `TIMSK1` are unchanged. -/
theorem setPeriod_frame (P : Nat) (t : TimerOne) (h : t.TCCR1B < 256) :
    (setPeriod P t).ICR1 = (setPeriod P t).pwmPeriod ∧
    (setPeriod P t).TCCR1B % 8 = (setPeriod P t).clockSelectBits ∧
    (∀ i, 3 ≤ i → (setPeriod P t).TCCR1B.testBit i = t.TCCR1B.testBit i) ∧
    ((setPeriod P t).TCCR1B.testBit WGM12 = t.TCCR1B.testBit WGM12 ∧
     (setPeriod P t).TCCR1B.testBit WGM13 = t.TCCR1B.testBit WGM13 ∧
     (setPeriod P t).TCCR1B.testBit ICES1 = t.TCCR1B.testBit ICES1 ∧
     (setPeriod P t).TCCR1B.testBit ICNC1 = t.TCCR1B.testBit ICNC1) ∧
    (setPeriod P t).TCCR1A = t.TCCR1A ∧
    (setPeriod P t).TIMSK1 = t.TIMSK1 := by
  have hc : (setPeriodSearch P).2 < 8 := by
    rcases setPeriodSearch_snd P with h1 | h1 | h1 | h1 | h1 <;> omega
  have hB : ∀ i, (setPeriod P t).TCCR1B.testBit i =
      if i < 3 then (setPeriodSearch P).2.testBit i else t.TCCR1B.testBit i :=
    fun i => testBit_setClock t.TCCR1B (setPeriodSearch P).2 i h hc
  have hhi : ∀ i, 3 ≤ i → (setPeriod P t).TCCR1B.testBit i = t.TCCR1B.testBit i := by
    intro i hi
    rw [hB i, if_neg (by omega)]
  refine ⟨?_, ?_, hhi, ⟨hhi _ (by decide), hhi _ (by decide), hhi _ (by decide),
    hhi _ (by decide)⟩, rfl, rfl⟩
  · rw [setPeriod_ICR1]
    exact Nat.mod_eq_of_lt (setPeriod_pwmPeriod_lt P t)
  · rw [setPeriod_clockSelectBits]
    apply Nat.eq_of_testBit_eq
    intro i
    have e : (8 : Nat) = 2 ^ 3 := by norm_num
    rw [e, Nat.testBit_mod_two_pow, hB i]
    by_cases h3 : i < 3
    · simp [h3]
    · have hci : (setPeriodSearch P).2.testBit i = false :=
        testBit_of_lt_two_pow _ 3 i (by norm_num; exact hc) (by omega)
      simp [h3, hci]

/-- C14 on the state left by `initialize(1000)` (`TCCR1B = 0x11`: mode bit
`WGM13` and the /1 clock), with the new request 100000 us: the clock-select
bits follow the new selector and the bits from position 3 up stay. -/
theorem setPeriod_frame_witness :
    (setPeriod 100000 (initialise 1000 powerOn)).ICR1
      = (setPeriod 100000 (initialise 1000 powerOn)).pwmPeriod ∧
    (setPeriod 100000 (initialise 1000 powerOn)).TCCR1B % 8
      = (setPeriod 100000 (initialise 1000 powerOn)).clockSelectBits ∧
    (∀ i, 3 ≤ i → (setPeriod 100000 (initialise 1000 powerOn)).TCCR1B.testBit i
      = (initialise 1000 powerOn).TCCR1B.testBit i) :=
  ⟨(setPeriod_frame 100000 (initialise 1000 powerOn) (by decide)).1,
   (setPeriod_frame 100000 (initialise 1000 powerOn) (by decide)).2.1,
   (setPeriod_frame 100000 (initialise 1000 powerOn) (by decide)).2.2.1⟩

/-! ## Claims about the prescaler search -/

/-- C15: prescaler search of `setPeriod`.  For every request `P` with
`cycles = 8 * P < 2^26`, the result of `setPeriod` is the first fit of the
spec's search over the cumulative divisors 1, 8, 64, 256, 1024 in that order:
`clockSelectBits` is the selector of the divisor `d` taken,
`pwmPeriod = floor(cycles / d) < 65536`, and no smaller divisor of the list
fits. -/
theorem setPeriod_first_fit (P : Nat) (t : TimerOne) (h : 8 * P < 67108864) :
    specFirstFit (8 * P) specDivisors
      = some ((setPeriod P t).pwmPeriod, (setPeriod P t).clockSelectBits) ∧
    ∃ d, (d, (setPeriod P t).clockSelectBits) ∈ specDivisors ∧
      (setPeriod P t).pwmPeriod = 8 * P / d ∧ 8 * P / d < 65536 ∧
      ∀ d2 sel2, (d2, sel2) ∈ specDivisors → d2 < d → ¬ (8 * P / d2 < 65536) := by
  rw [setPeriod_pwmPeriod, setPeriod_clockSelectBits, setPeriodSearch_of_lt P (by omega)]
  simp only [specFirstFit, specDivisors, Nat.div_one]
  have hmem : ∀ d2 sel2 : Nat, (d2, sel2) ∈ [(1, 1), (8, 2), (64, 3), (256, 4), (1024, 5)] →
      d2 = 1 ∨ d2 = 8 ∨ d2 = 64 ∨ d2 = 256 ∨ d2 = 1024 := by
    intro d2 sel2 hm
    simp only [List.mem_cons, Prod.mk.injEq, List.mem_singleton, List.not_mem_nil,
      or_false] at hm
    omega
  split_ifs with h1 h2 h3 h4 h5
  · refine ⟨?_, 1, by simp, ?_, ?_, ?_⟩
    · simp only [wr16s_natCast, Option.some.injEq, Prod.mk.injEq, and_true]; omega
    · simp only [wr16s_natCast]; omega
    · omega
    · intro d2 sel2 hm hlt; rcases hmem d2 sel2 hm with e | e | e | e | e <;> subst e <;> omega
  · refine ⟨?_, 8, by simp, ?_, ?_, ?_⟩
    · simp only [wr16s_natCast, Option.some.injEq, Prod.mk.injEq, and_true]; omega
    · simp only [wr16s_natCast]; omega
    · omega
    · intro d2 sel2 hm hlt; rcases hmem d2 sel2 hm with e | e | e | e | e <;> subst e <;> omega
  · refine ⟨?_, 64, by simp, ?_, ?_, ?_⟩
    · simp only [wr16s_natCast, Option.some.injEq, Prod.mk.injEq, and_true]; omega
    · simp only [wr16s_natCast]; omega
    · omega
    · intro d2 sel2 hm hlt; rcases hmem d2 sel2 hm with e | e | e | e | e <;> subst e <;> omega
  · refine ⟨?_, 256, by simp, ?_, ?_, ?_⟩
    · simp only [wr16s_natCast, Option.some.injEq, Prod.mk.injEq, and_true]; omega
    · simp only [wr16s_natCast]; omega
    · omega
    · intro d2 sel2 hm hlt; rcases hmem d2 sel2 hm with e | e | e | e | e <;> subst e <;> omega
  · refine ⟨?_, 1024, by simp, ?_, ?_, ?_⟩
    · simp only [wr16s_natCast, Option.some.injEq, Prod.mk.injEq, and_true]; omega
    · simp only [wr16s_natCast]; omega
    · omega
    · intro d2 sel2 hm hlt; rcases hmem d2 sel2 hm with e | e | e | e | e <;> subst e <;> omega
  · omega

/-- C15 at the request of 100000 us (`cycles = 800000`): the divisors 1 and 8
do not fit, 64 does, so the selector is 3 and the top value 12500. -/
theorem setPeriod_first_fit_witness :
    specFirstFit (8 * 100000) specDivisors = some (12500, 3) ∧
    (setPeriod 100000 powerOn).pwmPeriod = 12500 ∧
    (setPeriod 100000 powerOn).clockSelectBits = 3 :=
  ⟨(setPeriod_first_fit 100000 powerOn (by decide)).1.trans (by decide),
   by decide, by decide⟩

/-! ## Claims about the capture event -/

/-- Toggling bit `b` of an 8-bit register value with `reg ^= _BV(b)`. -/
theorem testBit_toggle8 (x b i : Nat) (hx : x < 256) (hb : b < 8) :
    (wr8 (x ^^^ _BV b)).testBit i = if i = b then !x.testBit i else x.testBit i := by
  unfold wr8 _BV
  have e : (256 : Nat) = 2 ^ 8 := by norm_num
  rw [e, Nat.testBit_mod_two_pow, Nat.testBit_xor, Nat.shiftLeft_eq, Nat.one_mul,
    Nat.testBit_two_pow]
  by_cases hi : i < 8
  · by_cases hib : i = b
    · subst hib; simp [hi]
    · have hbi : ¬ b = i := fun h => hib h.symm
      simp [hi, hib, hbi]
  · have hxi : x.testBit i = false :=
      testBit_of_lt_two_pow x 8 i (by norm_num; exact hx) (by omega)
    have hib : ¬ i = b := by omega
    simp [hi, hxi, hib]

/-- Toggling the same bit of an 8-bit value twice gives the value back. -/
theorem wr8_toggle_toggle (x b : Nat) (hx : x < 256) (hb : b < 8) :
    wr8 (wr8 (x ^^^ _BV b) ^^^ _BV b) = x := by
  apply Nat.eq_of_testBit_eq
  intro i
  have h1 : wr8 (x ^^^ _BV b) < 256 := Nat.mod_lt _ (by norm_num)
  rw [testBit_toggle8 _ b i h1 hb, testBit_toggle8 x b i hx hb]
  by_cases hib : i = b <;> simp [hib]

/-- The capture handler toggles `ICES1` in `TCCR1B`. -/
theorem icpCallback_TCCR1B (t : TimerOne) :
    (icpCallback t).TCCR1B = wr8 (t.TCCR1B ^^^ _BV ICES1) := by
  unfold icpCallback
  dsimp only
  split_ifs <;> rfl

/-- The capture handler on a rising edge (`ICES1` set): `lValue` is latched,
`hValue` is kept. -/
theorem icpCallback_rising (t : TimerOne) (h : t.TCCR1B.testBit ICES1 = true)
    (hfit : t.nOverflows * 65536 + t.ICR1 < 2147483648) :
    (icpCallback t).lValue = t.ICR1 + t.nOverflows * 65536 ∧
    (icpCallback t).hValue = t.hValue := by
  unfold icpCallback
  simp only [h, if_true]
  split_ifs <;> simp only [toULong] <;> refine ⟨?_, trivial⟩ <;> omega

/-- The capture handler on a falling edge (`ICES1` clear): `hValue` is
latched, `lValue` is kept. -/
theorem icpCallback_falling (t : TimerOne) (h : t.TCCR1B.testBit ICES1 = false)
    (hfit : t.nOverflows * 65536 + t.ICR1 < 2147483648) :
    (icpCallback t).hValue = t.ICR1 + t.nOverflows * 65536 ∧
    (icpCallback t).lValue = t.lValue := by
  unfold icpCallback
  simp only [h, Bool.false_eq_true, if_false]
  split_ifs <;> simp only [toULong] <;> refine ⟨?_, trivial⟩ <;> omega

/-- After `startCapture` the edge-select bit `ICES1` is set: the first
capture event is a rising edge. -/
theorem startCapture_ICES1 (us : Nat) (t : TimerOne) :
    (startCapture us t).TCCR1B.testBit ICES1 = true := by
  have e : (256 : Nat) = 2 ^ 8 := by norm_num
  have e6 : (_BV ICES1).testBit ICES1 = true := by decide
  have h8 : ICES1 < 8 := by decide
  unfold startCapture resume
  dsimp only
  unfold wr8
  simp only [e, Nat.testBit_mod_two_pow, Nat.testBit_or, e6, h8, decide_True, Bool.true_and,
    Bool.or_true, Bool.true_or]

/-- After `startCapture` the overflow count and the high-time latch are zero. -/
theorem startCapture_latches_zero (us : Nat) (t : TimerOne) :
    (startCapture us t).nOverflows = 0 ∧ (startCapture us t).hValue = 0 := by
  unfold startCapture resume
  exact ⟨rfl, rfl⟩

/-- C16: capture event step (`icpCallback`).  For every state with an 8-bit
`TCCR1B` and `nOverflows * 65536 + ICR1 < 2^31`: if `ICES1` is set (rising
edge fired) `lValue` becomes `ICR1 + nOverflows * 65536` and `hValue` is
unchanged, otherwise `hValue` becomes `ICR1 + nOverflows * 65536` and `lValue`
is unchanged; in both cases `TCNT1 = 0` and `nOverflows = 0` afterwards,
`ICES1` is inverted and all other bits of `TCCR1B` are unchanged.  So a second
event (the capture unit having latched any 16-bit `c`) writes the other latch,
keeps the first and restores `TCCR1B`; and after `startCapture` the first
event writes `lValue`. -/
theorem icpCallback_step (t : TimerOne) (hB : t.TCCR1B < 256)
    (hfit : t.nOverflows * 65536 + t.ICR1 < 2147483648) :
    (t.TCCR1B.testBit ICES1 = true →
      (icpCallback t).lValue = t.ICR1 + t.nOverflows * 65536 ∧
      (icpCallback t).hValue = t.hValue) ∧
    (t.TCCR1B.testBit ICES1 = false →
      (icpCallback t).hValue = t.ICR1 + t.nOverflows * 65536 ∧
      (icpCallback t).lValue = t.lValue) ∧
    (icpCallback t).TCNT1 = 0 ∧
    (icpCallback t).nOverflows = 0 ∧
    (∀ i, (icpCallback t).TCCR1B.testBit i =
      if i = ICES1 then !t.TCCR1B.testBit i else t.TCCR1B.testBit i) ∧
    (∀ c, c < 65536 →
      (icpCallback (captureAt c (icpCallback t))).TCCR1B = t.TCCR1B ∧
      (t.TCCR1B.testBit ICES1 = true →
        (icpCallback (captureAt c (icpCallback t))).lValue = t.ICR1 + t.nOverflows * 65536 ∧
        (icpCallback (captureAt c (icpCallback t))).hValue = c) ∧
      (t.TCCR1B.testBit ICES1 = false →
        (icpCallback (captureAt c (icpCallback t))).hValue = t.ICR1 + t.nOverflows * 65536 ∧
        (icpCallback (captureAt c (icpCallback t))).lValue = c)) ∧
    (∀ us s c, c < 65536 →
      (icpCallback (captureAt c (startCapture us s))).lValue = c ∧
      (icpCallback (captureAt c (startCapture us s))).hValue = 0) := by
  have hz := icpCallback_zeroes t
  have hbits : ∀ i, (icpCallback t).TCCR1B.testBit i =
      if i = ICES1 then !t.TCCR1B.testBit i else t.TCCR1B.testBit i := by
    intro i
    rw [icpCallback_TCCR1B]
    exact testBit_toggle8 t.TCCR1B ICES1 i hB (by decide)
  refine ⟨fun h => icpCallback_rising t h hfit, fun h => icpCallback_falling t h hfit,
    hz.1, hz.2, hbits, ?_, ?_⟩
  · intro c hc
    have hw : wr16 c = c := Nat.mod_eq_of_lt hc
    have hI : (captureAt c (icpCallback t)).ICR1 = c := hw
    have hN : (captureAt c (icpCallback t)).nOverflows = 0 := hz.2
    have hT : (captureAt c (icpCallback t)).TCCR1B = (icpCallback t).TCCR1B := rfl
    have hfit2 : (captureAt c (icpCallback t)).nOverflows * 65536
        + (captureAt c (icpCallback t)).ICR1 < 2147483648 := by rw [hI, hN]; omega
    refine ⟨?_, ?_, ?_⟩
    · rw [icpCallback_TCCR1B, hT, icpCallback_TCCR1B]
      exact wr8_toggle_toggle t.TCCR1B ICES1 hB (by decide)
    · intro hr
      have h2 : (captureAt c (icpCallback t)).TCCR1B.testBit ICES1 = false := by
        rw [hT, hbits ICES1, if_pos rfl, hr]; rfl
      obtain ⟨a1, a2⟩ := icpCallback_falling _ h2 hfit2
      rw [a1, a2, hI, hN]
      exact ⟨(icpCallback_rising t hr hfit).1, by omega⟩
    · intro hf
      have h2 : (captureAt c (icpCallback t)).TCCR1B.testBit ICES1 = true := by
        rw [hT, hbits ICES1, if_pos rfl, hf]; rfl
      obtain ⟨a1, a2⟩ := icpCallback_rising _ h2 hfit2
      rw [a1, a2, hI, hN]
      exact ⟨(icpCallback_falling t hf hfit).1, by omega⟩
  · intro us s c hc
    have hw : wr16 c = c := Nat.mod_eq_of_lt hc
    have hI : (captureAt c (startCapture us s)).ICR1 = c := hw
    have hN : (captureAt c (startCapture us s)).nOverflows = 0 :=
      (startCapture_latches_zero us s).1
    have hH : (captureAt c (startCapture us s)).hValue = 0 :=
      (startCapture_latches_zero us s).2
    have h2 : (captureAt c (startCapture us s)).TCCR1B.testBit ICES1 = true :=
      startCapture_ICES1 us s
    obtain ⟨a1, a2⟩ := icpCallback_rising _ h2 (by rw [hI, hN]; omega)
    rw [a1, a2, hI, hN, hH]
    exact ⟨by omega, rfl⟩

/-- C16 on a capture-mode state with rising edge armed, two overflows
counted and `ICR1 = 100`: the event latches `lValue = 100 + 2 * 65536`,
keeps `hValue = 11`, zeroes the counter and the overflow count, and a second
event with `ICR1 = 40` latches `hValue = 40` and restores `TCCR1B`. -/
theorem icpCallback_step_witness :
    (icpCallback captureDemo).lValue = 100 + 2 * 65536 ∧
    (icpCallback captureDemo).hValue = 11 ∧
    (icpCallback captureDemo).TCNT1 = 0 ∧
    (icpCallback captureDemo).nOverflows = 0 ∧
    (icpCallback (captureAt 40 (icpCallback captureDemo))).TCCR1B = captureDemo.TCCR1B ∧
    (icpCallback (captureAt 40 (icpCallback captureDemo))).hValue = 40 :=
  ⟨((icpCallback_step captureDemo (by decide) (by decide)).1 (by decide)).1,
   ((icpCallback_step captureDemo (by decide) (by decide)).1 (by decide)).2,
   (icpCallback_step captureDemo (by decide) (by decide)).2.2.1,
   (icpCallback_step captureDemo (by decide) (by decide)).2.2.2.1,
   ((icpCallback_step captureDemo (by decide) (by decide)).2.2.2.2.2.1 40 (by decide)).1,
   (((icpCallback_step captureDemo (by decide) (by decide)).2.2.2.2.2.1 40 (by decide)).2.1
      (by decide)).2⟩

/-! ## Claims about the event-counter range -/

/-- C17: event-counter range extension.  For every prior state and every
edge argument, after `startCounter(edge)` followed by `k` deliveries of the
overflow event (the user procedure it may run not writing `nOverflows`) with
the hardware counter then holding `c` (`c ≤ 65535`, `k * 65536 + c < 2^31`),
`getCounter(0)` returns the raw tick count `c + k * 65536`, with no
microsecond conversion; `getCounter(0)` immediately after `startCounter`
returns 0; and each overflow event increases `nOverflows` by exactly 1. -/
theorem counter_range_extension (t : TimerOne) (edge : Int)
    (call : Nat → TimerOne → TimerOne)
    (hcall : ∀ f s, (call f s).nOverflows = s.nOverflows)
    (k c : Nat) (hc : c ≤ 65535) (hfit : k * 65536 + c < 2147483648) :
    (getCounter 0 (counterAt c (ovfEvents call k (startCounter edge t)))).1 = c + k * 65536 ∧
    (getCounter 0 (startCounter edge t)).1 = 0 ∧
    (∀ j, j ≤ k → (ovfEvents call j (startCounter edge t)).nOverflows = j) ∧
    (∀ j, j < k → (ovfISR call (ovfEvents call j (startCounter edge t))).nOverflows
      = (ovfEvents call j (startCounter edge t)).nOverflows + 1) := by
  have hz := startCounter_zeroes edge t
  have hj : ∀ j, j ≤ k → (ovfEvents call j (startCounter edge t)).nOverflows = j := by
    intro j hjk
    rw [ovfEvents_nOverflows call hcall j _ (by rw [hz.2]; omega), hz.2]
    omega
  refine ⟨?_, ?_, hj, ?_⟩
  · have hN : (counterAt c (ovfEvents call k (startCounter edge t))).nOverflows = k :=
      hj k (le_refl k)
    have hT : (counterAt c (ovfEvents call k (startCounter edge t))).TCNT1 = c :=
      Nat.mod_eq_of_lt (by omega)
    rw [getCounter_fst, hN, hT]
    unfold toULong
    split_ifs <;> omega
  · rw [getCounter_fst, hz.1, hz.2]
    rfl
  · intro j hjk
    rw [ovfISR_nOverflows call hcall, hj j (by omega)]
    unfold toULong
    omega

/-- C17 from the power-on state, rising edge, with no user procedure: after
three overflow events and the counter at 500 the count is `500 + 3 * 65536`. -/
theorem counter_range_extension_witness :
    (getCounter 0 (counterAt 500 (ovfEvents noCall 3 (startCounter 1 powerOn)))).1
      = 500 + 3 * 65536 ∧
    (getCounter 0 (startCounter 1 powerOn)).1 = 0 :=
  ⟨(counter_range_extension powerOn 1 noCall (fun _ _ => rfl) 3 500 (by decide) (by decide)).1,
   (counter_range_extension powerOn 1 noCall (fun _ _ => rfl) 3 500 (by decide) (by decide)).2.1⟩

/-! ## Claims about capture mode entry from different modes -/

/-- With a positive period argument, `startCapture` reaches the same
registers and derived state from any two prior states. -/
theorem startCapture_two_runs_of_pos (us : Nat) (s1 s2 : TimerOne) (h : toULong us > 0) :
    (startCapture us s1).TCCR1A = (startCapture us s2).TCCR1A ∧
    (startCapture us s1).TCCR1B = (startCapture us s2).TCCR1B ∧
    (startCapture us s1).TIMSK1 = (startCapture us s2).TIMSK1 ∧
    (startCapture us s1).clockSelectBits = (startCapture us s2).clockSelectBits ∧
    (startCapture us s1).nOverflows = (startCapture us s2).nOverflows ∧
    (startCapture us s1).hValue = (startCapture us s2).hValue ∧
    (startCapture us s1).lValue = (startCapture us s2).lValue := by
  unfold startCapture resume
  simp only [h, if_true]
  refine ⟨?_, ?_, ?_, ?_, ?_, ?_, ?_⟩ <;> trivial

/-- C18 (the code at the failing input): `startCapture(0)` run from the state
left by `setPeriod(1000)` (`clockSelectBits = 1`) and from the state left by
`startCounter(1)` (`clockSelectBits = 7`) ends with different `TCCR1B`, `0x45`
and `0x47`: with no period argument `clockSelectBits` is not assigned, and
`resume()` ORs the previous mode's selector onto `TCCR1B = _BV(CS12)`.  In the
first run the clock-select bits of `TCCR1B` (5) differ from `clockSelectBits`
(1); in the second the external-clock selector of the counter mode survives. -/
theorem startCapture_zero_keeps_old_selector :
    (startCapture 0 (setPeriod 1000 powerOn)).TCCR1B = 0x45 ∧
    (startCapture 0 (startCounter 1 powerOn)).TCCR1B = 0x47 ∧
    (startCapture 0 (setPeriod 1000 powerOn)).TCCR1B
      ≠ (startCapture 0 (startCounter 1 powerOn)).TCCR1B ∧
    (startCapture 0 (setPeriod 1000 powerOn)).clockSelectBits = 1 ∧
    (startCapture 0 (setPeriod 1000 powerOn)).TCCR1B % 8 = 5 ∧
    (startCapture 0 (startCounter 1 powerOn)).clockSelectBits = 7 := by
  decide

/-! ## Claims about the captured semi-period -/

/-- The tick-to-microsecond conversion does not wrap when `ticks * 1000`
fits 32 bits. -/
theorem toMicros_of_fit (ticks scale : Nat) (ht : ticks * 1000 < 4294967296)
    (hs : scale ≤ 10) :
    toMicros ticks scale = (ticks * 1000 / (F_CPU / 1000)) <<< scale := by
  unfold toMicros toULong F_CPU
  rw [Nat.mod_eq_of_lt ht]
  apply Nat.mod_eq_of_lt
  rw [Nat.shiftLeft_eq]
  have hq : ticks * 1000 / (16000000 / 1000) ≤ 268435 := by omega
  have hp : 2 ^ scale ≤ 2 ^ 10 := Nat.pow_le_pow_right (by norm_num) hs
  calc ticks * 1000 / (16000000 / 1000) * 2 ^ scale ≤ 268435 * 2 ^ 10 := Nat.mul_le_mul hq hp
    _ < 4294967296 := by norm_num

/-- C19: captured semi-period readback.  For every state, with `v = hValue`
when `state = 1`, `v = lValue` when `state = 0` and `v = hValue + lValue` for
any other selector, and with `v * 1000 < 2^32`, `getCapture(state)` returns
`((v * 1000) / (F_CPU / 1000)) << s`, where `s` is 0, 3, 6, 8, 10 for
`clockSelectBits` 1, 2, 3, 4, 5 and 0 for any other value.  The method stores
nothing, so it is a function of the state alone. -/
theorem getCapture_value (state : Int) (t : TimerOne) (v : Nat)
    (hv : v = if state = 1 then t.hValue else if state = 0 then t.lValue
      else t.hValue + t.lValue)
    (hfit : v * 1000 < 4294967296) :
    getCapture state t = ((v * 1000) / (F_CPU / 1000)) <<< scaleOf t.clockSelectBits ∧
    scaleOf 1 = 0 ∧ scaleOf 2 = 3 ∧ scaleOf 3 = 6 ∧ scaleOf 4 = 8 ∧ scaleOf 5 = 10 ∧
    (∀ c, c = 0 ∨ 5 < c → scaleOf c = 0) := by
  refine ⟨?_, rfl, rfl, rfl, rfl, rfl, ?_⟩
  · have hres : (if state = 1 then toULong t.hValue else if state = 0 then toULong t.lValue
        else toULong (t.hValue + t.lValue)) = v := by
      rw [hv]
      unfold toULong
      split_ifs at hv ⊢ <;> subst hv <;> exact Nat.mod_eq_of_lt (by omega)
    unfold getCapture
    dsimp only
    rw [hres]
    exact toMicros_of_fit v _ hfit (scaleOf_le _)
  · intro c hc
    unfold scaleOf
    split <;> first | rfl | omega

/-- C19 on a /8 capture state with `hValue = 11` and `lValue = 22`: the high
time is `((11 * 1000) / 16000) << 3 = 0` and the total
`((33 * 1000) / 16000) << 3 = 16`. -/
theorem getCapture_value_witness :
    getCapture 1 captureDemo = 0 ∧ getCapture 2 captureDemo = 16 :=
  ⟨(getCapture_value 1 captureDemo 11 (by decide) (by decide)).1,
   (getCapture_value 2 captureDemo 33 (by decide) (by decide)).1⟩

/-! ## Claims about the monotonicity of the configured period -/

/-- The effective period configured by `setPeriod`, for a request whose
cycle count fits a positive `long`: the cycle count rounded down to a
multiple of the selected divisor, or the saturated maximum. -/
theorem effPeriod_setPeriod (P : Nat) (t : TimerOne) (h : 8 * P < 2147483648) :
    effPeriod (setPeriod P t) =
      if 8 * P < 65536 then 8 * P
      else if 8 * P / 8 < 65536 then 8 * P / 8 * 8
      else if 8 * P / 64 < 65536 then 8 * P / 64 * 64
      else if 8 * P / 256 < 65536 then 8 * P / 256 * 256
      else if 8 * P / 1024 < 65536 then 8 * P / 1024 * 1024
      else 65535 * 1024 := by
  unfold effPeriod
  rw [setPeriod_pwmPeriod, setPeriod_clockSelectBits, setPeriodSearch_of_lt P h]
  have e : wr16s 65535 = 65535 := by decide
  split_ifs <;> dsimp only <;> simp only [wr16s_natCast, e, scaleOf, Nat.shiftLeft_eq] <;> omega

/-- Whenever the search selects a prescaler other than /1, the final
`cycles` lies between 8192 and 65535; this holds for every request. -/
theorem setPeriodSearch_fst_ge (P : Nat) (h : (setPeriodSearch P).2 ≠ 1) :
    8192 ≤ (setPeriodSearch P).1 ∧ (setPeriodSearch P).1 < 65536 := by
  revert h
  simp only [setPeriodSearch, RESOLUTION, Int.shiftRight_eq_div_pow]
  generalize toLong (toULong (F_CPU / 2000000 * toULong P)) = v
  have e1 : _BV CS10 = 1 := by decide
  intro h
  split_ifs at h ⊢ <;> dsimp only at h ⊢ <;> first
    | exact absurd e1 h
    | (push_cast at *; refine ⟨?_, ?_⟩ <;> first | trivial | omega)

/-- C20: monotonicity of the configured period.  For every two requests
`P1 ≤ P2` with `8 * P2 < 2^31` (from any prior states), the effective period
`pwmPeriod << s` configured by `setPeriod` satisfies `eff(P1) ≤ eff(P2)`,
across prescaler boundaries and into the saturated range.  Moreover, for
every request, whenever a prescaler other than /1 is selected the top value is
at least 8192. -/
theorem effPeriod_monotone (P1 P2 : Nat) (t1 t2 : TimerOne) (h12 : P1 ≤ P2)
    (h2 : 8 * P2 < 2147483648) :
    effPeriod (setPeriod P1 t1) ≤ effPeriod (setPeriod P2 t2) ∧
    (∀ P t, (setPeriod P t).clockSelectBits ≠ 1 → 8192 ≤ (setPeriod P t).pwmPeriod) := by
  constructor
  · rw [effPeriod_setPeriod P1 t1 (by omega), effPeriod_setPeriod P2 t2 h2]
    split_ifs <;> omega
  · intro P t h
    rw [setPeriod_clockSelectBits] at h
    rw [setPeriod_pwmPeriod]
    have hb := setPeriodSearch_fst_ge P h
    unfold wr16s
    omega

/-- C20 across the first prescaler boundary and into saturation: the requests
8191 us, 8192 us and 10000000 us give the effective periods 65528, 65536 and
`65535 * 1024` cycles. -/
theorem effPeriod_monotone_witness :
    effPeriod (setPeriod 8191 powerOn) ≤ effPeriod (setPeriod 8192 powerOn) ∧
    effPeriod (setPeriod 8192 powerOn) ≤ effPeriod (setPeriod 10000000 powerOn) :=
  ⟨(effPeriod_monotone 8191 8192 powerOn powerOn (by decide) (by decide)).1,
   (effPeriod_monotone 8192 10000000 powerOn powerOn (by decide) (by decide)).1⟩

end Timer1
